import Mathlib

/-!
# logue-panel-demo: fixed-point conversions, demo oscillator, panel and entry points

Shallow embedding of `src/logue_dsp.h` (portable, non Cortex-M4 branch),
`src/demo_oscillator.h`, `src/logue_panel.h`, `src/logue_voiceid.h` and
`src/main.cpp`.

Conventions of the embedding:

* a C++ `float` is an exact rational (`ℚ`): NaN, infinities and the rounding of
  float arithmetic are outside the model, except where the rounding decides the
  result: `logue.roundF32` is the binary32 rounding (to nearest, ties to even)
  and `demo.modulatedPhaseF32` is the modulated phase of `Oscillator::render`
  with every operation rounded;
* the fixed-point conversions are those of the branch compiled when
  `DSP_CORTEX_M4` is 0 (no `ARM_MATH_CM4`); the Cortex-M4 branch replaces them by
  the conversion instruction of the processor, which saturates;
* `int32_t` / `uint32_t` values are integers, with explicit `% 2 ^ 32` where the
  code relies on wrap-around;
* an operation whose C++ result is undefined returns `none`;
* a loop whose exit is not evident from its shape takes fuel and returns `none`
  when the fuel runs out before the loop exits.
-/

namespace logue

/-- `INT32_MAX` of `<cstdint>`. -/
def INT32_MAX : ℤ := 2147483647

/-- `INT32_MIN` of `<cstdint>`. -/
def INT32_MIN : ℤ := -2147483648

/-- `UINT32_MAX` of `<cstdint>`. -/
def UINT32_MAX : ℤ := 4294967295

/-- Float-to-integer conversion of C++ discards the fractional part. -/
def truncate (x : ℚ) : ℤ := if 0 ≤ x then ⌊x⌋ else ⌈x⌉

/-- `int32_t(x)` for a float `x`: the truncated value, undefined when it does
not fit in `int32_t`. -/
def castInt32 (x : ℚ) : Option ℤ :=
  if INT32_MIN ≤ truncate x ∧ truncate x ≤ INT32_MAX then some (truncate x) else none

/-- `uint32_t(x)` for a float `x`: the truncated value, undefined when it does
not fit in `uint32_t`. -/
def castUInt32 (x : ℚ) : Option ℤ :=
  if 0 ≤ truncate x ∧ truncate x ≤ UINT32_MAX then some (truncate x) else none

/-- `float(1ull << k)`, an exact power of two for every shift `k < 64`. -/
def pow2f (k : ℕ) : ℚ := ((2 ^ k : ℕ) : ℚ)

/-- `s32ToFloat<fbits>(n)`: `float(n) * (1.0f / float(1ull << fbits))`. -/
def s32ToFloat (fbits : ℕ) (n : ℤ) : ℚ := (n : ℚ) * (1 / pow2f fbits)

/-- `u32ToFloat<fbits>(n)`: `float(n) * (1.0f / float(1ull << fbits))`. -/
def u32ToFloat (fbits : ℕ) (n : ℕ) : ℚ := (n : ℚ) * (1 / pow2f fbits)

/-- `floatToS32<fbits>(n)`: `int32_t(n * float(1ull << fbits))`; the shift is
undefined for `fbits ≥ 64`. -/
def floatToS32 (fbits : ℕ) (n : ℚ) : Option ℤ :=
  if fbits < 64 then castInt32 (n * pow2f fbits) else none

/-- `floatToU32<fbits>(n)`: `uint32_t(n * float(1ull << fbits))`. -/
def floatToU32 (fbits : ℕ) (n : ℚ) : Option ℤ :=
  if fbits < 64 then castUInt32 (n * pow2f fbits) else none

/-- `floatToS32_saturating<fbits>(n)`; the unsigned shift count `31 - fbits`
is only defined for `fbits ≤ 31`. -/
def floatToS32_saturating (fbits : ℕ) (n : ℚ) : Option ℤ :=
  if fbits ≤ 31 then
    if n ≥ pow2f (31 - fbits) then some INT32_MAX
    else if n ≤ -pow2f (31 - fbits) then some INT32_MIN
    else floatToS32 fbits n
  else none

/-- `floatToU32_saturating<fbits>(n)`; the unsigned shift count `32 - fbits`
is only defined for `fbits ≤ 32`. -/
def floatToU32_saturating (fbits : ℕ) (n : ℚ) : Option ℤ :=
  if fbits ≤ 32 then
    if n ≥ pow2f (32 - fbits) then some UINT32_MAX
    else if n ≤ 0 then some 0
    else floatToU32 fbits n
  else none

/-- `floatScaleByPow2(x, y)` on the IEEE-754 bit pattern `x` of the float:
`xu.i += uint32_t(y << 23)` in 32-bit unsigned arithmetic, the shifted `int`
being reduced modulo `2^32` by the conversion to `uint32_t`. -/
def floatScaleByPow2 (x : ℕ) (y : ℤ) : ℕ :=
  (x + ((y * 2 ^ 23) % 2 ^ 32).toNat) % 2 ^ 32

/-- Sign bit (bit 31) of a binary32 bit pattern. -/
def signBit (x : ℕ) : ℕ := x / 2 ^ 31 % 2

/-- Biased exponent (bits 23..30) of a binary32 bit pattern. -/
def biasedExponent (x : ℕ) : ℕ := x / 2 ^ 23 % 256

/-- Mantissa field (bits 0..22) of a binary32 bit pattern. -/
def mantissa (x : ℕ) : ℕ := x % 2 ^ 23

/-- Value of a binary32 bit pattern (IEEE-754): normal numbers carry the hidden
bit, exponent 0 is zero or subnormal, exponent 255 (infinity, NaN) has no
value. -/
def floatValue (x : ℕ) : Option ℚ :=
  if biasedExponent x = 255 then none
  else if biasedExponent x = 0 then
    some ((-1) ^ signBit x * ((mantissa x : ℚ) / 2 ^ 23) * (2 : ℚ) ^ (-126 : ℤ))
  else
    some ((-1) ^ signBit x * (1 + (mantissa x : ℚ) / 2 ^ 23)
      * (2 : ℚ) ^ ((biasedExponent x : ℤ) - 127))

end logue

namespace demo

/-- Functions of the logue SDK (`osc_api.h`) the oscillator calls; they belong
to the host, not to this repository. -/
structure OscApi where
  osc_w0f_for_note : ℕ → ℕ → ℚ
  osc_sinf : ℚ → ℚ
  osc_bl2_sqrf : ℚ → ℚ → ℚ
  osc_bl2_parf : ℚ → ℚ → ℚ
  osc_bl2_sawf : ℚ → ℚ → ℚ
  osc_bl_sqr_idx : ℚ → ℚ
  osc_bl_par_idx : ℚ → ℚ
  osc_bl_saw_idx : ℚ → ℚ

/-- Members of `demo::Oscillator` with their in-class initialisers. -/
structure Oscillator where
  m_waveformIndex : ℕ := 0
  m_note : ℚ := 0
  m_phase : ℚ := 0
  m_phaseDelta : ℚ := 0
  m_modulation : ℚ := 0
  m_noiseState : ℕ := 1

/-- `Oscillator::Square`. -/
def Square : ℕ := 0

/-- `Oscillator::Parabola`. -/
def Parabola : ℕ := 1

/-- `Oscillator::Sawtooth`. -/
def Sawtooth : ℕ := 2

/-- `Oscillator::setWaveform(index)`. -/
def setWaveform (index : ℕ) (s : Oscillator) : Oscillator :=
  { s with m_waveformIndex := index }

/-- `Oscillator::setModulation(modulation)`. -/
def setModulation (modulation : ℚ) (s : Oscillator) : Oscillator :=
  { s with m_modulation :=
      if modulation < 0 then 0 else if modulation > 1 then 1 else modulation }

/-- The two clamping statements at the head of `Oscillator::setPitch`. -/
def clampPitch (pitch : ℤ) : ℤ :=
  if pitch < 0 then 0 else if pitch ≥ 0x7fff then 0x7fff else pitch

/-- `uint8_t(unsigned(v) & 0xffu)` for an `int32_t` value `v`. -/
def lowByte (v : ℤ) : ℕ := ((v % 2 ^ 32).toNat &&& 0xff) % 256

/-- Arguments `(note, fine)` of the `osc_w0f_for_note` call in `setPitch`, from
the already clamped pitch. -/
def pitchTableArgs (pitch : ℤ) : ℕ × ℕ := (lowByte (pitch >>> (8 : ℕ)), lowByte pitch)

/-- `Oscillator::setPitch(pitch)`. -/
def setPitch (api : OscApi) (pitch : ℤ) (s : Oscillator) : Oscillator :=
  { s with
    m_note := logue.s32ToFloat 8 (clampPitch pitch)
    m_phaseDelta :=
      api.osc_w0f_for_note (pitchTableArgs (clampPitch pitch)).1
        (pitchTableArgs (clampPitch pitch)).2 }

/-- The `switch` of `Oscillator::render`: waveform function and band limit. -/
def selectWave (api : OscApi) (s : Oscillator) : (ℚ → ℚ → ℚ) × ℚ :=
  if s.m_waveformIndex = Square then (api.osc_bl2_sqrf, api.osc_bl_sqr_idx s.m_note)
  else if s.m_waveformIndex = Parabola then (api.osc_bl2_parf, api.osc_bl_par_idx s.m_note)
  else if s.m_waveformIndex = Sawtooth then (api.osc_bl2_sawf, api.osc_bl_saw_idx s.m_note)
  else (api.osc_bl2_sawf, api.osc_bl_saw_idx s.m_note)

/-- Phase handed to the waveform function, in exact arithmetic: `phase + mod *
sine` followed by the single conditional `+= 1.0f` / `-= 1.0f`. The binary32
result of the same three statements is `modulatedPhaseF32`. -/
def modulatedPhase (phase mod sine : ℚ) : ℚ :=
  if phase + mod * sine < 0 then phase + mod * sine + 1
  else if phase + mod * sine ≥ 1 then phase + mod * sine - 1
  else phase + mod * sine

/-- Phase increment at the end of the loop body: `phase += phaseDelta;
if (phase >= 1.0f) phase -= 1.0f`. -/
def advancePhase (phase phaseDelta : ℚ) : ℚ :=
  if phase + phaseDelta ≥ 1 then phase + phaseDelta - 1 else phase + phaseDelta

/-- The `for` loop of `Oscillator::render`: the samples written to `yn[0..frames)`
and the phase at loop exit. -/
def renderLoop (api : OscApi) (waveFunction : ℚ → ℚ → ℚ) (bandLimit mod phaseDelta : ℚ) :
    ℕ → ℚ → List ℚ × ℚ
  | 0, phase => ([], phase)
  | frames + 1, phase =>
    let r := renderLoop api waveFunction bandLimit mod phaseDelta frames
      (advancePhase phase phaseDelta)
    (waveFunction (modulatedPhase phase mod (api.osc_sinf phase)) bandLimit :: r.1, r.2)

/-- `Oscillator::render(yn, frames)`: the samples written and the new state. -/
def render (api : OscApi) (frames : ℕ) (s : Oscillator) : List ℚ × Oscillator :=
  let r := renderLoop api (selectWave api s).1 (selectWave api s).2
    (s.m_modulation * (3 / 4)) s.m_phaseDelta frames s.m_phase
  (r.1, { s with m_phase := r.2 })

/-- One call on the public interface of the oscillator. -/
inductive Call where
  | setWaveform (index : ℕ)
  | setModulation (modulation : ℚ)
  | setPitch (pitch : ℤ)
  | render (frames : ℕ)

/-- State after one call. -/
def Call.run (api : OscApi) (s : Oscillator) : Call → Oscillator
  | Call.setWaveform index => demo.setWaveform index s
  | Call.setModulation modulation => demo.setModulation modulation s
  | Call.setPitch pitch => demo.setPitch api pitch s
  | Call.render frames => (demo.render api frames s).2

/-- State after a sequence of calls on a freshly constructed oscillator. -/
def runCalls (api : OscApi) (calls : List Call) : Oscillator :=
  calls.foldl (Call.run api) {}

/-- What the member comments promise of the stored phase and phase increment:
`m_phase` in `[0, 1)` and `m_phaseDelta` in `[0, 0.5]`. -/
def PhaseInv (s : Oscillator) : Prop :=
  (0 ≤ s.m_phase ∧ s.m_phase < 1) ∧ (0 ≤ s.m_phaseDelta ∧ s.m_phaseDelta ≤ 1 / 2)

/-- A stand-in host used to instantiate the theorems at concrete inputs: a
linear pitch table with values below `0.5`, a triangular "sine" with values in
`[-1, 1]` and piecewise-linear wave shapes. -/
def sampleApi : OscApi where
  osc_w0f_for_note := fun note fine => ((256 * note + fine : ℕ) : ℚ) / 131072
  osc_sinf := fun phase => if phase < 1 / 2 then 1 - |4 * phase - 1| else |4 * phase - 3| - 1
  osc_bl2_sqrf := fun phase _ => if phase < 1 / 2 then 1 else -1
  osc_bl2_parf := fun phase _ => 1 - 8 * (phase - 1 / 2) * (phase - 1 / 2)
  osc_bl2_sawf := fun phase _ => 1 - 2 * phase
  osc_bl_sqr_idx := fun note => note
  osc_bl_par_idx := fun note => note
  osc_bl_saw_idx := fun note => note

end demo

/-! ## Host panel (`src/logue_internals.h`, `src/logue_panel.h`) -/

namespace logue

/-- Build target: `PLATFORM_KORG_PROLOGUE`, `PLATFORM_KORG_MINILOGUE_XD`, or
neither (then `LOGUE_INTERNALS_PANEL_SUPPORT` is 0 and the dummy `Panel` class
is compiled). -/
inductive Platform where
  | prologue
  | minilogueXD
  | other
  deriving DecidableEq, Repr

/-- Fields of `VcoControl_210` that the panel reads or writes; the reserved
words are left out. -/
structure VcoControl where
  shape : ℕ := 0
  pitch : ℤ := 0
  mixerLevel : ℕ := 0
  pitchEg : ℤ := 0
  waveform : ℕ := 0
  ringEnable : ℕ := 0

/-- Fields of `Engine_210` that the panel reads or writes. -/
structure Engine where
  vco : Fin 2 → VcoControl := fun _ => {}
  filterCutoffKeyTrack : ℤ := 0
  multiMixerLevel : ℕ := 0
  filterResonanceControl : ℕ := 0
  filterCutoffControl : ℕ := 0
  crossModulationDepth : ℕ := 0
  filterEgIntensity : ℕ := 0
  vcoSyncEnable : ℕ := 0
  multiVcfBypass : ℕ := 0
  filterDrive : ℕ := 0
  lowCut : ℕ := 0

/-- Fields of `MainState_210` that the panel reads or writes; `engine` is the
single element of `engine[1]`. -/
structure MainState where
  engine : Engine := {}
  egVelocity : ℕ := 0
  ampVelocity : ℕ := 0

/-- Fields of `LfoState_210` that the panel reads; `mode` and `active` exist on
Minilogue XD only. -/
structure LfoState where
  waveform : ℕ := 0
  multiEnable : ℕ := 0
  mode : ℕ := 0
  active : ℕ := 0
  phaseDelta : ℕ := 0
  phaseValue : ℕ := 0
  pitchOut : ℤ := 0
  filterOut : ℤ := 0
  shapeOut : ℤ := 0

/-- Fields of `EnvelopeState_210` that the panel reads. -/
structure EnvelopeState where
  filterEgIntensity1 : ℤ := 0
  modulationEgLevel : ℕ := 0

/-- Field of `VcoState_210` that the panel reads. -/
structure VcoState where
  lfoPitchModEnable : ℕ := 0

/-- `VcoStateArray_210`. -/
structure VcoStateArray where
  vco : Fin 2 → VcoState := fun _ => {}

/-- What the four pointer members of `logue::Panel` point at. -/
structure Panel where
  m_main : MainState
  m_lfo : LfoState
  m_envelope : EnvelopeState
  m_vco : VcoStateArray

/-- `FirmwareHashPrologue210`. -/
def FirmwareHashPrologue210 : ℕ := 0x0eff0f53

/-- `FirmwareHashMinilogueXD210`. -/
def FirmwareHashMinilogueXD210 : ℕ := 0x2a6b3685

/-- `kExpectedFlashHash12k`, selected by the preprocessor. -/
def kExpectedFlashHash12k : Platform → ℕ
  | Platform.prologue => FirmwareHashPrologue210
  | Platform.minilogueXD => FirmwareHashMinilogueXD210
  | Platform.other => 0

/-- State of the loop in `Panel::memZeroBytes`: the bytes at `address + i`, the
offset of `ptr` from `address`, and `size`. -/
structure ZeroLoop where
  mem : ℕ → ℕ
  ptr : ℕ
  size : ℕ

/-- `Panel::memZeroBytes`: `while (size != 0) *ptr++ = 0;`. One unit of fuel
per loop test; `none` when the fuel runs out before the loop exits. -/
def memZeroBytes : ℕ → ZeroLoop → Option ZeroLoop
  | 0, _ => none
  | fuel + 1, st =>
    if st.size ≠ 0 then
      memZeroBytes fuel
        { mem := fun a => if a = st.ptr then 0 else st.mem a, ptr := st.ptr + 1, size := st.size }
    else some st

/-- The `do { ... } while (--blocks)` loop of `Panel::init`. `flash` gives the
32-bit word at a byte address; `ldmia` loads eight consecutive words and
advances `address` by 32. One unit of fuel per iteration. -/
def checksumLoop (flash : ℕ → ℕ) : ℕ → ℕ → ℕ → ℕ → Option ℕ
  | 0, _, _, _ => none
  | fuel + 1, address, blocks, hash =>
    let r4 := flash address % 2 ^ 32
    let r5 := flash (address + 4) % 2 ^ 32
    let r6 := flash (address + 8) % 2 ^ 32
    let r7 := flash (address + 12) % 2 ^ 32
    let r8 := flash (address + 16) % 2 ^ 32
    let r9 := flash (address + 20) % 2 ^ 32
    let r10 := flash (address + 24) % 2 ^ 32
    let r11 := flash (address + 28) % 2 ^ 32
    let partialSum := (r4 + r5 + r6 + r7 + r8 + r9 + r10 + r11) % 2 ^ 32
    let hash1 := hash ^^^ partialSum
    let hash2 := hash1 ^^^ ((hash1 <<< 13) % 2 ^ 32)
    let hash3 := hash2 ^^^ (hash2 >>> 17)
    let hash4 := hash3 ^^^ ((hash3 <<< 5) % 2 ^ 32)
    if (blocks + 2 ^ 32 - 1) % 2 ^ 32 ≠ 0 then
      checksumLoop flash fuel (address + 32) ((blocks + 2 ^ 32 - 1) % 2 ^ 32) hash4
    else some hash4

/-- The checksum computed by `Panel::init`: 384 blocks from `0x08000000`,
starting from `0x1200`. -/
def flashChecksum (flash : ℕ → ℕ) (fuel : ℕ) : Option ℕ :=
  checksumLoop flash fuel 0x08000000 384 0x1200

/-- A flash image used as a concrete input: all words zero except the first
word of the last block, chosen so that the checksum is the Minilogue XD value
`0x2a6b3685`. -/
def sampleFlash : ℕ → ℕ := fun address => if address = 0x08002fe0 then 0x2dc850e0 else 0

/-- Value of the local `isValid` of `Panel::init` when the test
`if (!isValid)` is reached; a pointer is `none` when it is `nullptr`. -/
def Panel.initIsValid (platform : Platform) (fuel : ℕ) (flash : ℕ → ℕ)
    (main : Option MainState) (lfo : Option LfoState) (envelope : Option EnvelopeState)
    (vco : Option VcoStateArray) : Option Bool :=
  if main.isSome ∧ lfo.isSome ∧ (envelope.isSome ∧ vco.isSome) then
    match flashChecksum flash fuel with
    | none => none
    | some hash => some (decide (hash = kExpectedFlashHash12k platform))
  else some false

/-- The image installed by the fallback branch of `Panel::init` once the four
`memZeroBytes` calls have returned: all zero, then the five assignments. -/
def Panel.fallbackImage : Panel :=
  { m_main :=
      { engine :=
          { vco := fun _ => { pitch := 0 }
            filterCutoffControl := 0x2000 }
        egVelocity := 0x2000
        ampVelocity := 0x1400 }
    m_lfo := {}
    m_envelope := {}
    m_vco := {} }

/-- The fallback branch of `Panel::init`: four `memZeroBytes` calls on the
static objects (`sizeof` 0xa0, 0x30, 0x80 and 0xc0 on the 32-bit target), the
five assignments and the rebinding of the pointers. -/
def Panel.installFallback (fuel : ℕ) : Option Panel :=
  match memZeroBytes fuel { mem := fun _ => 0, ptr := 0, size := 0xa0 } with
  | none => none
  | some _ =>
    match memZeroBytes fuel { mem := fun _ => 0, ptr := 0, size := 0x30 } with
    | none => none
    | some _ =>
      match memZeroBytes fuel { mem := fun _ => 0, ptr := 0, size := 0x80 } with
      | none => none
      | some _ =>
        match memZeroBytes fuel { mem := fun _ => 0, ptr := 0, size := 0xc0 } with
        | none => none
        | some _ => some Panel.fallbackImage

/-- `Panel::Panel()`, that is `Panel::init()`: the panel once the constructor
has returned, `none` when it does not return within the fuel. -/
def Panel.init (platform : Platform) (fuel : ℕ) (flash : ℕ → ℕ)
    (main : Option MainState) (lfo : Option LfoState) (envelope : Option EnvelopeState)
    (vco : Option VcoStateArray) : Option Panel :=
  match Panel.initIsValid platform fuel flash main lfo envelope vco with
  | none => none
  | some false => Panel.installFallback fuel
  | some true =>
    match main, lfo, envelope, vco with
    | some m, some l, some e, some v => some { m_main := m, m_lfo := l, m_envelope := e, m_vco := v }
    | _, _, _, _ => none

/-- `Panel::vcoWaveform(index)`. -/
def Panel.vcoWaveform (platform : Platform) (p : Panel) (index : Fin 2) : ℕ :=
  match platform with
  | Platform.other => 0
  | _ => (p.m_main.engine.vco index).waveform

/-- `Panel::vcoShape(index)`. -/
def Panel.vcoShape (platform : Platform) (p : Panel) (index : Fin 2) : ℕ :=
  match platform with
  | Platform.other => 0
  | _ => (p.m_main.engine.vco index).shape

/-- `Panel::vcoPitch(index)`. -/
def Panel.vcoPitch (platform : Platform) (p : Panel) (index : Fin 2) : ℤ :=
  match platform with
  | Platform.other => 0
  | _ => (p.m_main.engine.vco index).pitch

/-- `Panel::filterCutoffControl()`. -/
def Panel.filterCutoffControl (platform : Platform) (p : Panel) : ℕ :=
  match platform with
  | Platform.other => 0
  | _ => p.m_main.engine.filterCutoffControl

/-- `Panel::lfoWaveform()`. -/
def Panel.lfoWaveform (platform : Platform) (p : Panel) : ℕ :=
  match platform with
  | Platform.other => 0
  | _ => p.m_lfo.waveform

/-- `Panel::rawEgVelocity()`. -/
def Panel.rawEgVelocity (platform : Platform) (p : Panel) : ℕ :=
  match platform with
  | Platform.other => 0x2000
  | _ => p.m_main.egVelocity

/-- `Panel::rawAmpVelocity()`. -/
def Panel.rawAmpVelocity (platform : Platform) (p : Panel) : ℕ :=
  match platform with
  | Platform.other => 0x1400
  | _ => p.m_main.ampVelocity

/-- `Panel::egVelocity()`. -/
def Panel.egVelocity (platform : Platform) (p : Panel) : ℚ :=
  match platform with
  | Platform.other => 1
  | _ => (Panel.rawEgVelocity platform p : ℚ) * (1 / ((0x2000 : ℕ) : ℚ))

/-- `Panel::ampVelocity()`. -/
def Panel.ampVelocity (platform : Platform) (p : Panel) : ℚ :=
  match platform with
  | Platform.other => 1
  | _ => (Panel.rawAmpVelocity platform p : ℚ) * (1 / ((0x1400 : ℕ) : ℚ))

/-- `Panel::lfoIsOneShot()`. -/
def Panel.lfoIsOneShot (platform : Platform) (p : Panel) : Bool :=
  match platform with
  | Platform.prologue => false
  | Platform.minilogueXD => decide (p.m_lfo.mode &&& 1 ≠ 0)
  | Platform.other => false

/-- `Panel::lfoPhase()`. -/
def Panel.lfoPhase (platform : Platform) (p : Panel) : ℕ :=
  match platform with
  | Platform.prologue => p.m_lfo.phaseValue
  | Platform.minilogueXD =>
    if Panel.lfoIsOneShot Platform.minilogueXD p = true ∧ p.m_lfo.phaseValue ≥ 0x80000000 then
      0x7fffffff
    else p.m_lfo.phaseValue
  | Platform.other => 0

/-- `Panel::vcoPitchEg(index)`. -/
def Panel.vcoPitchEg (platform : Platform) (p : Panel) (index : Fin 2) : ℤ :=
  match platform with
  | Platform.other => 0
  | _ => (p.m_main.engine.vco index).pitchEg

/-- `Panel::vcoLevel(index)`. -/
def Panel.vcoLevel (platform : Platform) (p : Panel) (index : Fin 2) : ℕ :=
  match platform with
  | Platform.other => 0
  | _ => (p.m_main.engine.vco index).mixerLevel

/-- `Panel::multiLevel()`. -/
def Panel.multiLevel (platform : Platform) (p : Panel) : ℕ :=
  match platform with
  | Platform.other => 0
  | _ => p.m_main.engine.multiMixerLevel

/-- `Panel::crossModulationDepth()`. -/
def Panel.crossModulationDepth (platform : Platform) (p : Panel) : ℕ :=
  match platform with
  | Platform.other => 0
  | _ => p.m_main.engine.crossModulationDepth

/-- `Panel::filterDriveSwitch()`. -/
def Panel.filterDriveSwitch (platform : Platform) (p : Panel) : ℕ :=
  match platform with
  | Platform.other => 0
  | _ => p.m_main.engine.filterDrive

/-- `Panel::filterCutoffKeyTrack()`. -/
def Panel.filterCutoffKeyTrack (platform : Platform) (p : Panel) : ℤ :=
  match platform with
  | Platform.other => 0
  | _ => p.m_main.engine.filterCutoffKeyTrack

/-- `Panel::filterResonanceControl()`. -/
def Panel.filterResonanceControl (platform : Platform) (p : Panel) : ℕ :=
  match platform with
  | Platform.other => 0
  | _ => p.m_main.engine.filterResonanceControl

/-- `Panel::filterEgIntensityControl()`. -/
def Panel.filterEgIntensityControl (platform : Platform) (p : Panel) : ℕ :=
  match platform with
  | Platform.other => 0
  | _ => p.m_main.engine.filterEgIntensity

/-- `Panel::filterLowCutEnable()`. -/
def Panel.filterLowCutEnable (platform : Platform) (p : Panel) : Bool :=
  match platform with
  | Platform.other => false
  | _ => decide (p.m_main.engine.lowCut ≠ 0)

/-- `Panel::ringEnable()`. -/
def Panel.ringEnable (platform : Platform) (p : Panel) : Bool :=
  match platform with
  | Platform.other => false
  | _ => decide ((p.m_main.engine.vco 1).ringEnable ≠ 0)

/-- `Panel::syncEnable()`. -/
def Panel.syncEnable (platform : Platform) (p : Panel) : Bool :=
  match platform with
  | Platform.other => false
  | _ => decide (p.m_main.engine.vcoSyncEnable ≠ 0)

/-- `Panel::multiVcfBypassEnable()`. -/
def Panel.multiVcfBypassEnable (platform : Platform) (p : Panel) : Bool :=
  match platform with
  | Platform.other => false
  | _ => decide (p.m_main.engine.multiVcfBypass ≠ 0)

/-- `Panel::lfoShapeModulation()`. -/
def Panel.lfoShapeModulation (platform : Platform) (p : Panel) : ℤ :=
  match platform with
  | Platform.other => 0
  | _ => p.m_lfo.shapeOut

/-- `Panel::lfoPitchModulation()`. -/
def Panel.lfoPitchModulation (platform : Platform) (p : Panel) : ℤ :=
  match platform with
  | Platform.other => 0
  | _ => p.m_lfo.pitchOut

/-- `Panel::lfoFilterModulation()`. -/
def Panel.lfoFilterModulation (platform : Platform) (p : Panel) : ℤ :=
  match platform with
  | Platform.other => 0
  | _ => p.m_lfo.filterOut

/-- `Panel::lfoPhaseDelta()`. -/
def Panel.lfoPhaseDelta (platform : Platform) (p : Panel) : ℕ :=
  match platform with
  | Platform.other => 0
  | _ => p.m_lfo.phaseDelta

/-- `Panel::lfoModulationEnableMulti()`. -/
def Panel.lfoModulationEnableMulti (platform : Platform) (p : Panel) : Bool :=
  match platform with
  | Platform.other => false
  | _ => decide (0 ≠ p.m_lfo.multiEnable)

/-- `Panel::lfoModulationEnableVco(index)`. -/
def Panel.lfoModulationEnableVco (platform : Platform) (p : Panel) (index : Fin 2) : Bool :=
  match platform with
  | Platform.other => false
  | _ => decide (0 ≠ (p.m_vco.vco index).lfoPitchModEnable)

/-- `Panel::egFilterIntensity()`. -/
def Panel.egFilterIntensity (platform : Platform) (p : Panel) : ℤ :=
  match platform with
  | Platform.other => 0
  | _ => p.m_envelope.filterEgIntensity1

/-- `Panel::egFilterModulationLevel()`. -/
def Panel.egFilterModulationLevel (platform : Platform) (p : Panel) : ℕ :=
  match platform with
  | Platform.other => 0
  | _ => p.m_envelope.modulationEgLevel

/-- `Panel::lfoIsActive()`. -/
def Panel.lfoIsActive (platform : Platform) (p : Panel) : Bool :=
  match platform with
  | Platform.prologue => true
  | Platform.minilogueXD => decide (p.m_lfo.active ≠ 0)
  | Platform.other => false

/-- `Panel::lfoClock()`: `kLfoClockHz` on the supported platforms, `1.0f` in
the dummy class. -/
def Panel.lfoClock (platform : Platform) : ℚ :=
  match platform with
  | Platform.other => 1
  | _ => 40500

/-- `VoiceID::hash8(n)`, on the value of `m_hash`. -/
def VoiceID.hash8 (n : ℕ) (m_hash : ℕ) : ℕ :=
  ((m_hash ^^^ n) * 0x01000193) % 2 ^ 32

/-- `VoiceID::hash32(n)`, on the value of `m_hash`. -/
def VoiceID.hash32 (n : ℕ) (m_hash : ℕ) : ℕ :=
  VoiceID.hash8 (((n >>> 24) &&& 0xff) % 256)
    (VoiceID.hash8 (((n >>> 16) &&& 0xff) % 256)
      (VoiceID.hash8 (((n >>> 8) &&& 0xff) % 256)
        (VoiceID.hash8 (((n >>> 0) &&& 0xff) % 256) m_hash)))

/-- `VoiceID::VoiceID()` followed by `operator()`: the hash of the three unique
id words on the STM32 targets, zero elsewhere. -/
def VoiceID (stm32 : Bool) (uniqueId0 uniqueId1 uniqueId2 : ℕ) : ℕ :=
  if stm32 then
    VoiceID.hash32 uniqueId2 (VoiceID.hash32 uniqueId1 (VoiceID.hash32 uniqueId0 0x811c9dc5))
  else 0

end logue

/-! ## Entry points (`src/main.cpp`) -/

/-- The struct `Globals` without its `panel` member: the panel only holds
pointers into host memory, whose current content is an input of every call. -/
structure Globals where
  osc0 : demo.Oscillator := {}
  osc1 : demo.Oscillator := {}
  detune : ℤ := 0
  shape : ℚ := 0
  shiftShape : ℚ := 0
  mix : ℚ := 0

/-- `int32_t(n)` for a 32-bit unsigned `n`: the two's complement reading. -/
def toInt32 (n : ℕ) : ℤ :=
  if n % 2 ^ 32 < 2 ^ 31 then ((n % 2 ^ 32 : ℕ) : ℤ) else ((n % 2 ^ 32 : ℕ) : ℤ) - 2 ^ 32

/-- Bit pattern of `int32_t(phase) >> 31` for a 32-bit `phase`: all ones when
bit 31 is set, all zeros otherwise. -/
def signMask (phase : ℕ) : ℕ := if phase < 0x80000000 then 0 else 0xffffffff

/-- The integer `amplitude` of `lfoAmplitude` from the 32-bit phase and the
waveform code; the triangle case works on 32-bit patterns, the subtraction and
the shift being reduced modulo `2^32`. -/
def lfoIntAmplitude (waveform phase : ℕ) : ℤ :=
  if waveform = 0 then
    if phase < 0x80000000 then 0x7fffffff else -0x7fffffff
  else if waveform = 1 then
    toInt32 (((((phase ^^^ signMask phase) + 2 ^ 32 - 0x40000000) % 2 ^ 32) <<< 1) % 2 ^ 32)
  else if waveform = 2 then
    toInt32 ((0x7fffffff + 2 ^ 32 - phase) % 2 ^ 32)
  else 0

/-- `lfoAmplitude(gain)`, reading the LFO phase and waveform from the panel. -/
def lfoAmplitude (platform : logue.Platform) (panel : logue.Panel) (gain : ℚ) : ℚ :=
  logue.s32ToFloat 31
    (lfoIntAmplitude (logue.Panel.lfoWaveform platform panel) (logue.Panel.lfoPhase platform panel))
    * gain

/-- Lines 97-98 of `OSC_INIT`: `x = int32_t(hash) >> 28; if (x >= 0) x += 1`. -/
def detuneOfHash (hash : ℕ) : ℤ :=
  if toInt32 hash >>> (28 : ℕ) ≥ 0 then toInt32 hash >>> (28 : ℕ) + 1
  else toInt32 hash >>> (28 : ℕ)

/-- `OSC_INIT(platform, api)`; the inputs are what `VoiceID` reads from the
hardware. -/
def OSC_INIT (stm32 : Bool) (uniqueId0 uniqueId1 uniqueId2 : ℕ) (g : Globals) : Globals :=
  { g with
    detune := detuneOfHash (logue.VoiceID stm32 uniqueId0 uniqueId1 uniqueId2)
    shape := 0
    shiftShape := 0
    mix := 0 }

/-- `OSC_PARAM(index, value)`; the two SDK constants `k_user_osc_param_shape`
and `k_user_osc_param_shiftshape` (`userosc.h`) are parameters. -/
def OSC_PARAM (k_user_osc_param_shape k_user_osc_param_shiftshape : ℕ) (index value : ℕ)
    (g : Globals) : Globals :=
  if k_user_osc_param_shape = index then
    { g with shape := logue.u32ToFloat 10 (if value > 1023 then 1023 else value) }
  else if k_user_osc_param_shiftshape = index then
    { g with shiftShape := logue.u32ToFloat 10 (if value > 1023 then 1023 else value) }
  else g

/-- The mixing loop of `OSC_CYCLE`: `yn[i] = floatToS32<31>(gain0 * b0[i] +
gain1 * b1[i])`; `none` as soon as a conversion is undefined. -/
def mixLoop (gain0 gain1 : ℚ) : List ℚ → List ℚ → Option (List ℤ)
  | b0 :: rest0, b1 :: rest1 =>
    match logue.floatToS32 31 (gain0 * b0 + gain1 * b1), mixLoop gain0 gain1 rest0 rest1 with
    | some y, some ys => some (y :: ys)
    | _, _ => none
  | _, _ => some []

/-- The local `mix` of `OSC_CYCLE` after its two clamping statements. -/
def clampMix (mix : ℚ) : ℚ := if mix < 0 then 0 else if mix > 1 then 1 else mix

/-- The part of `OSC_CYCLE` that updates the global state: pitch, waveform and
modulation of both oscillators, the stored mix, and the two renders. -/
def OSC_CYCLE_state (platform : logue.Platform) (api : demo.OscApi) (panel : logue.Panel)
    (pitch : ℕ) (frames : ℕ) (g : Globals) : Globals :=
  let osc0 := demo.setPitch api ((pitch : ℤ) + g.detune + logue.Panel.vcoPitch platform panel 0)
    g.osc0
  let osc1 := demo.setPitch api ((pitch : ℤ) - g.detune + logue.Panel.vcoPitch platform panel 1)
    g.osc1
  let osc0 := demo.setWaveform (logue.Panel.vcoWaveform platform panel 0) osc0
  let osc1 := demo.setWaveform (logue.Panel.vcoWaveform platform panel 1) osc1
  let osc0 := demo.setModulation (logue.u32ToFloat 13 (logue.Panel.vcoShape platform panel 0)) osc0
  let osc1 := demo.setModulation (logue.u32ToFloat 13 (logue.Panel.vcoShape platform panel 1)) osc1
  let mixTarget := g.shape + lfoAmplitude platform panel g.shiftShape
  { g with
    osc0 := (demo.render api frames osc0).2
    osc1 := (demo.render api frames osc1).2
    mix := g.mix + (mixTarget - g.mix) * (1 / 10) }

/-- The samples `OSC_CYCLE` writes to `yn`; `none` when the call is undefined
(more than 64 frames overflow `buffer`, or a sum is outside the range of
`floatToS32<31>`). -/
def OSC_CYCLE_output (platform : logue.Platform) (api : demo.OscApi) (panel : logue.Panel)
    (pitch : ℕ) (frames : ℕ) (g : Globals) : Option (List ℤ) :=
  let osc0 := demo.setPitch api ((pitch : ℤ) + g.detune + logue.Panel.vcoPitch platform panel 0)
    g.osc0
  let osc1 := demo.setPitch api ((pitch : ℤ) - g.detune + logue.Panel.vcoPitch platform panel 1)
    g.osc1
  let osc0 := demo.setWaveform (logue.Panel.vcoWaveform platform panel 0) osc0
  let osc1 := demo.setWaveform (logue.Panel.vcoWaveform platform panel 1) osc1
  let osc0 := demo.setModulation (logue.u32ToFloat 13 (logue.Panel.vcoShape platform panel 0)) osc0
  let osc1 := demo.setModulation (logue.u32ToFloat 13 (logue.Panel.vcoShape platform panel 1)) osc1
  let mix := clampMix g.mix
  let gain1 := mix * (9 / 10)
  let gain0 := (1 - mix) * (9 / 10)
  if frames ≤ 64 then
    mixLoop gain0 gain1 (demo.render api frames osc0).1 (demo.render api frames osc1).1
  else none

/-- `OSC_CYCLE(params, yn, frames)`: the samples and the new global state. -/
def OSC_CYCLE (platform : logue.Platform) (api : demo.OscApi) (panel : logue.Panel)
    (pitch : ℕ) (frames : ℕ) (g : Globals) : Option (List ℤ) × Globals :=
  (OSC_CYCLE_output platform api panel pitch frames g,
    OSC_CYCLE_state platform api panel pitch frames g)

/-- Inputs of one `OSC_CYCLE` call: the host memory seen through the panel,
`params->pitch` and `frames`. -/
structure CycleInput where
  panel : logue.Panel
  pitch : ℕ
  frames : ℕ

/-- Global state after a sequence of `OSC_CYCLE` calls. -/
def runCycles (platform : logue.Platform) (api : demo.OscApi) (g : Globals)
    (inputs : List CycleInput) : Globals :=
  inputs.foldl (fun st i => (OSC_CYCLE platform api i.panel i.pitch i.frames st).2) g

/-- A concrete state for instantiating theorems: after `OSC_INIT`, shape set to
`1023/1024` and shift-shape to `2/1024` through `OSC_PARAM` (SDK indices 6 and
7). -/
def sampleGlobals : Globals := OSC_PARAM 6 7 7 2 (OSC_PARAM 6 7 6 1023 (OSC_INIT false 0 0 0 {}))

/-- A concrete host state: sawtooth LFO at phase `0x3fffffff`, everything else
zero. With `sampleGlobals` the mix target is exactly 1. -/
def samplePanel : logue.Panel :=
  { m_main := {}, m_lfo := { waveform := 2, phaseValue := 0x3fffffff }, m_envelope := {},
    m_vco := {} }

/-- A concrete `OSC_CYCLE` input: `samplePanel`, middle C, 64 frames. -/
def sampleInput : CycleInput := { panel := samplePanel, pitch := 0x3c00, frames := 64 }

/-- The two gains of `OSC_CYCLE`, `(gain0, gain1)`: computed from the local
`mix`, which is the stored mix on entry after the two clamping statements. -/
def cycleGains (g : Globals) : ℚ × ℚ :=
  ((1 - clampMix g.mix) * (9 / 10), clampMix g.mix * (9 / 10))

/-- The mix target of one block: `shape + lfoAmplitude(shiftShape)`. -/
def mixTarget (platform : logue.Platform) (panel : logue.Panel) (g : Globals) : ℚ :=
  g.shape + lfoAmplitude platform panel g.shiftShape

/-- A host whose square wave overshoots to `10/9`, otherwise `sampleApi`. -/
def loudApi : demo.OscApi := { demo.sampleApi with osc_bl2_sqrf := fun _ _ => 10 / 9 }

/-- A concrete host state: square LFO in its second half (phase `0x80000000`),
everything else zero. -/
def squarePanel : logue.Panel :=
  { m_main := {}, m_lfo := { waveform := 0, phaseValue := 0x80000000 }, m_envelope := {},
    m_vco := {} }

/-! ## Reference definitions, following the words of the specification -/

/-- The specification's mixing function: `h ^= h << 13; h ^= h >> 17;
h ^= h << 5` on 32-bit words, in that order. -/
def specMix (h : ℕ) : ℕ :=
  let a := h ^^^ ((h <<< 13) % 2 ^ 32)
  let b := a ^^^ (a >>> 17)
  b ^^^ ((b <<< 5) % 2 ^ 32)

/-- The sum modulo `2^32` of the eight 32-bit words of block `b` of the flash
image, which starts at byte address `0x08000000`. -/
def specBlockSum (flash : ℕ → ℕ) (b : ℕ) : ℕ :=
  ((List.range 8).map (fun j => flash (0x08000000 + 32 * b + 4 * j) % 2 ^ 32)).sum % 2 ^ 32

/-- The specification's checksum: the fold over the 384 blocks of the first
12 KiB, starting from `0x1200`. -/
def specChecksum (flash : ℕ → ℕ) : ℕ :=
  (List.range 384).foldl (fun hash b => specMix (hash ^^^ specBlockSum flash b)) 0x1200

/-- The four bytes of a 32-bit word, least significant first. -/
def specBytesLE (n : ℕ) : List ℕ :=
  [n % 256, n / 256 % 256, n / 65536 % 256, n / 16777216 % 256]

/-- 32-bit FNV-1a over a list of bytes, as the specification words it: seed
`0x811c9dc5`, and per byte `hash := ((hash XOR byte) * 0x01000193) mod 2^32`. -/
def specFnv1a (bytes : List ℕ) : ℕ :=
  bytes.foldl (fun hash byte => ((hash ^^^ byte) * 0x01000193) % 2 ^ 32) 0x811c9dc5

/-- The gains as the specification words them: the mix is first smoothed toward
the target of the block, then clamped to `[0, 1]`, and the gains are
`(1 - mix) * 0.9` and `mix * 0.9` of that value. -/
def specCycleGains (platform : logue.Platform) (panel : logue.Panel) (g : Globals) : ℚ × ℚ :=
  let mix := clampMix (g.mix + (mixTarget platform panel g - g.mix) * (1 / 10))
  ((1 - mix) * (9 / 10), mix * (9 / 10))

/-- The mixing loop as the specification words it: every summed sample is
converted with the saturating conversion. -/
def specMixLoop (gain0 gain1 : ℚ) : List ℚ → List ℚ → Option (List ℤ)
  | b0 :: rest0, b1 :: rest1 =>
    match logue.floatToS32_saturating 31 (gain0 * b0 + gain1 * b1),
      specMixLoop gain0 gain1 rest0 rest1 with
    | some y, some ys => some (y :: ys)
    | _, _ => none
  | _, _ => some []

/-! ## Fixed-point conversions -/

namespace logue

theorem pow2f_pos (k : ℕ) : 0 < pow2f k := by
  unfold pow2f
  exact_mod_cast Nat.pos_pow_of_pos k (by norm_num)

theorem truncate_abs_le (x : ℚ) : |(truncate x : ℚ)| ≤ |x| := by
  unfold truncate
  split_ifs with h
  · have h1 : (0 : ℚ) ≤ (⌊x⌋ : ℚ) := by exact_mod_cast Int.floor_nonneg.mpr h
    rw [abs_of_nonneg h1, abs_of_nonneg h]
    exact Int.floor_le x
  · push_neg at h
    have h1 : ((⌈x⌉ : ℤ) : ℚ) ≤ 0 := by exact_mod_cast Int.ceil_le.mpr (by simpa using h.le)
    rw [abs_of_nonpos h1, abs_of_neg h]
    linarith [Int.le_ceil x]

theorem truncate_sub_abs_lt (x : ℚ) : |(truncate x : ℚ) - x| < 1 := by
  unfold truncate
  rw [abs_lt]
  split_ifs with h
  · constructor <;> linarith [Int.floor_le x, Int.lt_floor_add_one x]
  · constructor <;> linarith [Int.le_ceil x, Int.ceil_lt_add_one x]

end logue

namespace logue

theorem castInt32_of_abs_lt (x : ℚ) (h : |x| < 2147483648) :
    castInt32 x = some (truncate x) := by
  have h1 := truncate_abs_le x
  have h2 : |(truncate x : ℚ)| < 2147483648 := lt_of_le_of_lt h1 h
  rw [abs_lt] at h2
  have h3 : (-2147483648 : ℤ) < truncate x := by exact_mod_cast h2.1
  have h4 : truncate x < (2147483648 : ℤ) := by exact_mod_cast h2.2
  unfold castInt32 INT32_MIN INT32_MAX
  rw [if_pos]
  constructor <;> omega

theorem pow2f_mul_of_le (fbits : ℕ) (h : fbits ≤ 31) :
    pow2f (31 - fbits) * pow2f fbits = 2147483648 := by
  unfold pow2f
  have : 2 ^ (31 - fbits) * 2 ^ fbits = 2147483648 := by
    rw [← pow_add, Nat.sub_add_cancel h]
    norm_num
  exact_mod_cast this

theorem scaled_abs_lt (fbits : ℕ) (h : fbits ≤ 31) (n : ℚ)
    (hlo : -pow2f (31 - fbits) < n) (hhi : n < pow2f (31 - fbits)) :
    |n * pow2f fbits| < 2147483648 := by
  have hp := pow2f_pos fbits
  have hm := pow2f_mul_of_le fbits h
  rw [abs_lt]
  constructor
  · have := mul_lt_mul_of_pos_right hlo hp
    linarith
  · have := mul_lt_mul_of_pos_right hhi hp
    linarith

end logue

/-- C1: for `fbits ≤ 31`, `floatToS32_saturating<fbits>(n)` is `INT32_MAX` for
every `n ≥ 2^(31-fbits)` and `INT32_MIN` for every `n ≤ -2^(31-fbits)`; in
particular `<31>(2.0)` is `INT32_MAX` and `<31>(-2.0)` is `INT32_MIN`. -/
theorem C1_floatToS32_saturating_extremes (fbits : ℕ) (h : fbits ≤ 31) (n : ℚ) :
    ((2 : ℚ) ^ (31 - fbits) ≤ n → logue.floatToS32_saturating fbits n = some (2 ^ 31 - 1))
    ∧ (n ≤ -(2 : ℚ) ^ (31 - fbits) → logue.floatToS32_saturating fbits n = some (-2 ^ 31))
    ∧ logue.floatToS32_saturating 31 2 = some (2 ^ 31 - 1)
    ∧ logue.floatToS32_saturating 31 (-2) = some (-2 ^ 31) := by
  have hp : logue.pow2f (31 - fbits) = (2 : ℚ) ^ (31 - fbits) := by
    unfold logue.pow2f; push_cast; rfl
  have hpos : (0 : ℚ) < (2 : ℚ) ^ (31 - fbits) := by positivity
  refine ⟨?_, ?_, ?_, ?_⟩
  · intro hn
    unfold logue.floatToS32_saturating logue.INT32_MAX
    rw [if_pos h, hp, if_pos hn]
    norm_num
  · intro hn
    unfold logue.floatToS32_saturating logue.INT32_MIN
    rw [if_pos h, hp, if_neg (by rw [ge_iff_le, not_le]; linarith), if_pos hn]
    norm_num
  · norm_num [logue.floatToS32_saturating, logue.pow2f, logue.INT32_MAX]
  · norm_num [logue.floatToS32_saturating, logue.pow2f, logue.INT32_MIN]

/-- Witness of C1 at `fbits = 31`, `n = 2`. -/
theorem C1_floatToS32_saturating_extremes_witness :
    (31 : ℕ) ≤ 31 ∧ logue.floatToS32_saturating 31 2 = some (2 ^ 31 - 1) :=
  ⟨le_refl 31, (C1_floatToS32_saturating_extremes 31 (le_refl 31) 2).1 (by norm_num)⟩

/-- C2: round trip. For `fbits ≤ 31` and `-2^(31-fbits) < n < 2^(31-fbits)` the
saturating conversion is defined and `s32ToFloat<fbits>` of its result differs
from `n` by less than `2^-fbits`. -/
theorem C2_round_trip (fbits : ℕ) (h : fbits ≤ 31) (n : ℚ)
    (hlo : -(2 : ℚ) ^ (31 - fbits) < n) (hhi : n < (2 : ℚ) ^ (31 - fbits)) :
    ∃ k : ℤ, logue.floatToS32_saturating fbits n = some k
      ∧ |logue.s32ToFloat fbits k - n| < 1 / (2 : ℚ) ^ fbits := by
  have hp : logue.pow2f (31 - fbits) = (2 : ℚ) ^ (31 - fbits) := by
    unfold logue.pow2f; push_cast; rfl
  have hq : logue.pow2f fbits = (2 : ℚ) ^ fbits := by
    unfold logue.pow2f; push_cast; rfl
  have hpos : (0 : ℚ) < (2 : ℚ) ^ fbits := by positivity
  have hs := logue.scaled_abs_lt fbits h n (by rw [hp]; exact hlo) (by rw [hp]; exact hhi)
  refine ⟨logue.truncate (n * logue.pow2f fbits), ?_, ?_⟩
  · unfold logue.floatToS32_saturating logue.floatToS32
    rw [if_pos h, hp, if_neg (by rw [ge_iff_le, not_le]; exact hhi),
      if_neg (by rw [not_le]; exact hlo), if_pos (by omega)]
    exact logue.castInt32_of_abs_lt _ hs
  · have ht := logue.truncate_sub_abs_lt (n * logue.pow2f fbits)
    unfold logue.s32ToFloat
    rw [hq] at ht ⊢
    have e : ((logue.truncate (n * 2 ^ fbits) : ℤ) : ℚ) * (1 / 2 ^ fbits) - n
        = ((logue.truncate (n * 2 ^ fbits) : ℚ) - n * 2 ^ fbits) / 2 ^ fbits := by
      field_simp
      ring
    rw [e, abs_div, abs_of_pos hpos]
    exact div_lt_div_of_pos_right ht hpos

/-- Witness of C2 at `fbits = 1`, `n = 25/4`: the result is `12`, read back as
`6`. -/
theorem C2_round_trip_witness :
    ∃ k : ℤ, logue.floatToS32_saturating 1 (25 / 4) = some k
      ∧ |logue.s32ToFloat 1 k - 25 / 4| < 1 / (2 : ℚ) ^ 1 :=
  C2_round_trip 1 (by norm_num) (25 / 4) (by norm_num) (by norm_num)

namespace logue

theorem pow2f_eq (k : ℕ) : pow2f k = (2 : ℚ) ^ k := by
  unfold pow2f; push_cast; rfl

theorem floatToS32_of_abs_lt (fbits : ℕ) (h : fbits ≤ 31) (n : ℚ)
    (hn : |n * (2 : ℚ) ^ fbits| < 2 ^ 31) :
    floatToS32 fbits n = some (truncate (n * (2 : ℚ) ^ fbits)) := by
  unfold floatToS32
  rw [if_pos (by omega), pow2f_eq]
  exact castInt32_of_abs_lt _ (by norm_num at hn ⊢; exact hn)

end logue

/-- C3: for `fbits ≤ 31` and `|n * 2^fbits| < 2^31`, `floatToS32<fbits>(n)` is
defined and is `n * 2^fbits` rounded toward zero: the floor for a non-negative
product and the ceiling for a negative one, so its magnitude never exceeds that
of the product and it is less than one away from it. The documented examples
hold: `<0>(-10.5) = -10`, `<0>(10.5) = 10`, `<1>(12.5) = 25`. -/
theorem C3_floatToS32_rounds_toward_zero (fbits : ℕ) (h : fbits ≤ 31) (n : ℚ)
    (hn : |n * (2 : ℚ) ^ fbits| < 2 ^ 31) :
    logue.floatToS32 fbits n
        = some (if 0 ≤ n * (2 : ℚ) ^ fbits then ⌊n * (2 : ℚ) ^ fbits⌋ else ⌈n * (2 : ℚ) ^ fbits⌉)
    ∧ (∃ r : ℤ, logue.floatToS32 fbits n = some r
        ∧ |(r : ℚ)| ≤ |n * (2 : ℚ) ^ fbits| ∧ |(r : ℚ) - n * (2 : ℚ) ^ fbits| < 1)
    ∧ logue.floatToS32 0 (-21 / 2) = some (-10)
    ∧ logue.floatToS32 0 (21 / 2) = some 10
    ∧ logue.floatToS32 1 (25 / 2) = some 25 := by
  refine ⟨?_, ?_, ?_, ?_, ?_⟩
  · rw [logue.floatToS32_of_abs_lt fbits h n hn]
    rfl
  · exact ⟨_, logue.floatToS32_of_abs_lt fbits h n hn, logue.truncate_abs_le _,
      logue.truncate_sub_abs_lt _⟩
  · rw [logue.floatToS32_of_abs_lt 0 (by norm_num) _ (by norm_num [abs_lt])]
    norm_num [logue.truncate, Int.ceil_eq_iff]
  · rw [logue.floatToS32_of_abs_lt 0 (by norm_num) _ (by norm_num [abs_lt])]
    norm_num [logue.truncate, Int.floor_eq_iff]
  · rw [logue.floatToS32_of_abs_lt 1 (by norm_num) _ (by norm_num [abs_lt])]
    norm_num [logue.truncate, Int.floor_eq_iff]

/-- Witness of C3 at `fbits = 0`, `n = -10.5`. -/
theorem C3_floatToS32_rounds_toward_zero_witness :
    |(-21 / 2 : ℚ) * (2 : ℚ) ^ 0| < 2 ^ 31 ∧ logue.floatToS32 0 (-21 / 2) = some (-10) :=
  ⟨by norm_num [abs_lt],
    (C3_floatToS32_rounds_toward_zero 0 (by norm_num) (-21 / 2) (by norm_num [abs_lt])).2.2.1⟩

/-- C4 as stated fails: with `fbits = 31` the input `1.0 = 2^(31-31)` is at the
claimed boundary, yet `floatToU32_saturating<31>(1.0)` is `0x80000000`, not
`UINT32_MAX`. -/
theorem C4_counterexample :
    (2 : ℚ) ^ (31 - 31) ≤ 1
    ∧ logue.floatToU32_saturating 31 1 = some 2147483648
    ∧ ¬ (∀ (fbits : ℕ) (n : ℚ), fbits ≤ 32 → (2 : ℚ) ^ ((31 : ℤ) - fbits) ≤ n →
          logue.floatToU32_saturating fbits n = some 4294967295) := by
  have e : logue.floatToU32_saturating 31 1 = some 2147483648 := by
    norm_num [logue.floatToU32_saturating, logue.floatToU32, logue.castUInt32, logue.pow2f,
      logue.truncate, logue.UINT32_MAX]
  refine ⟨by norm_num, e, ?_⟩
  intro hall
  have h1 := hall 31 1 (by norm_num) (by norm_num)
  rw [e] at h1
  exact absurd h1 (by decide)

/-- C4 amended: for `fbits ≤ 32`, `floatToU32_saturating<fbits>(n)` is
`UINT32_MAX` for every `n ≥ 2^(32-fbits)` and `0` for every `n ≤ 0`. -/
theorem C4_floatToU32_saturating_extremes (fbits : ℕ) (h : fbits ≤ 32) (n : ℚ) :
    ((2 : ℚ) ^ (32 - fbits) ≤ n → logue.floatToU32_saturating fbits n = some 4294967295)
    ∧ (n ≤ 0 → logue.floatToU32_saturating fbits n = some 0) := by
  have hpos : (0 : ℚ) < (2 : ℚ) ^ (32 - fbits) := by positivity
  constructor
  · intro hn
    unfold logue.floatToU32_saturating logue.UINT32_MAX
    rw [if_pos h, logue.pow2f_eq, if_pos hn]
  · intro hn
    unfold logue.floatToU32_saturating
    rw [if_pos h, logue.pow2f_eq, if_neg (by rw [ge_iff_le, not_le]; linarith), if_pos hn]

/-- Witness of the amended C4 at `fbits = 31`, `n = 2`. -/
theorem C4_floatToU32_saturating_extremes_witness :
    (31 : ℕ) ≤ 32 ∧ logue.floatToU32_saturating 31 2 = some 4294967295 :=
  ⟨by norm_num, (C4_floatToU32_saturating_extremes 31 (by norm_num) 2).1 (by norm_num)⟩

namespace logue

theorem floatScaleByPow2_eq (x : ℕ) (hx : x < 2 ^ 32) (y : ℤ)
    (h1 : 1 ≤ (biasedExponent x : ℤ) + y) (h2 : (biasedExponent x : ℤ) + y ≤ 254) :
    (floatScaleByPow2 x y : ℤ) = (x : ℤ) + y * 2 ^ 23 := by
  unfold floatScaleByPow2 biasedExponent at *
  norm_num at *
  omega

end logue

/-- C5: for a 32-bit pattern `x` of a normal float (biased exponent `e` in
`1..254`) and an integer `y` with `1 ≤ e + y ≤ 254`, `floatScaleByPow2(x, y)` keeps
the sign bit and the mantissa, has biased exponent `e + y`, and its value is
exactly the value of `x` times `2^y`. Normality is needed: for `x = +0.0` and
`y = 1` the result is the bit pattern `0x00800000`, worth `2^-126`, not `0`. -/
theorem C5_floatScaleByPow2_normal (x : ℕ) (hx : x < 2 ^ 32) (y : ℤ)
    (he1 : 1 ≤ logue.biasedExponent x) (he2 : logue.biasedExponent x ≤ 254)
    (h1 : 1 ≤ (logue.biasedExponent x : ℤ) + y) (h2 : (logue.biasedExponent x : ℤ) + y ≤ 254) :
    logue.signBit (logue.floatScaleByPow2 x y) = logue.signBit x
    ∧ logue.mantissa (logue.floatScaleByPow2 x y) = logue.mantissa x
    ∧ (logue.biasedExponent (logue.floatScaleByPow2 x y) : ℤ) = logue.biasedExponent x + y
    ∧ (∃ v : ℚ, logue.floatValue x = some v
        ∧ logue.floatValue (logue.floatScaleByPow2 x y) = some (v * (2 : ℚ) ^ y))
    ∧ logue.floatValue 0 = some 0
    ∧ logue.floatScaleByPow2 0 1 = 0x00800000
    ∧ logue.floatValue (logue.floatScaleByPow2 0 1) = some ((2 : ℚ) ^ (-126 : ℤ)) := by
  have hr := logue.floatScaleByPow2_eq x hx y h1 h2
  have hs : logue.signBit (logue.floatScaleByPow2 x y) = logue.signBit x := by
    unfold logue.signBit logue.biasedExponent at *
    norm_num at *
    omega
  have hm : logue.mantissa (logue.floatScaleByPow2 x y) = logue.mantissa x := by
    unfold logue.mantissa logue.biasedExponent at *
    norm_num at *
    omega
  have hexp : (logue.biasedExponent (logue.floatScaleByPow2 x y) : ℤ)
      = logue.biasedExponent x + y := by
    unfold logue.biasedExponent at *
    norm_num at *
    omega
  have hz : logue.floatScaleByPow2 0 1 = 0x00800000 := by decide
  refine ⟨hs, hm, hexp, ?_, ?_, hz, ?_⟩
  · refine ⟨(-1) ^ logue.signBit x * (1 + (logue.mantissa x : ℚ) / 2 ^ 23)
      * (2 : ℚ) ^ ((logue.biasedExponent x : ℤ) - 127), ?_, ?_⟩
    · unfold logue.floatValue
      rw [if_neg (by omega), if_neg (by omega)]
    · unfold logue.floatValue
      rw [if_neg (by omega), if_neg (by omega), hs, hm, hexp]
      have e : (logue.biasedExponent x : ℤ) + y - 127 = (logue.biasedExponent x : ℤ) - 127 + y := by
        ring
      rw [e, zpow_add₀ (by norm_num : (2 : ℚ) ≠ 0)]
      congr 1
      ring
  · norm_num [logue.floatValue, logue.biasedExponent, logue.mantissa]
  · rw [hz]
    norm_num [logue.floatValue, logue.biasedExponent, logue.mantissa, logue.signBit]

/-- Witness of C5 at `x = 0x3f800000` (the float `1.0`, exponent 127) and
`y = 3`: the result is `0x41000000` (the float `8.0`). -/
theorem C5_floatScaleByPow2_normal_witness :
    (0x3f800000 : ℕ) < 2 ^ 32 ∧ 1 ≤ logue.biasedExponent 0x3f800000
    ∧ logue.biasedExponent 0x3f800000 ≤ 254
    ∧ (logue.biasedExponent (logue.floatScaleByPow2 0x3f800000 3) : ℤ)
        = logue.biasedExponent 0x3f800000 + 3 :=
  ⟨by norm_num, by decide, by decide,
    (C5_floatScaleByPow2_normal 0x3f800000 (by norm_num) 3 (by decide) (by decide)
      (by decide) (by decide)).2.2.1⟩

/-! ## The demo oscillator -/

namespace demo

theorem advancePhase_mem (phase phaseDelta : ℚ) (h0 : 0 ≤ phase) (h1 : phase < 1)
    (d0 : 0 ≤ phaseDelta) (d1 : phaseDelta ≤ 1 / 2) :
    0 ≤ advancePhase phase phaseDelta ∧ advancePhase phase phaseDelta < 1 := by
  unfold advancePhase
  split_ifs with h
  · constructor <;> linarith
  · push_neg at h
    constructor <;> linarith

theorem renderLoop_phase_mem (api : OscApi) (waveFunction : ℚ → ℚ → ℚ)
    (bandLimit mod phaseDelta : ℚ) (d0 : 0 ≤ phaseDelta) (d1 : phaseDelta ≤ 1 / 2)
    (frames : ℕ) : ∀ phase : ℚ, 0 ≤ phase → phase < 1 →
      0 ≤ (renderLoop api waveFunction bandLimit mod phaseDelta frames phase).2
      ∧ (renderLoop api waveFunction bandLimit mod phaseDelta frames phase).2 < 1 := by
  induction frames with
  | zero =>
    intro phase h0 h1
    exact ⟨h0, h1⟩
  | succ k ih =>
    intro phase h0 h1
    have ha := advancePhase_mem phase phaseDelta h0 h1 d0 d1
    exact ih _ ha.1 ha.2

theorem run_phaseInv (api : OscApi)
    (htab : ∀ note fine : ℕ, note < 256 → fine < 256 →
      0 ≤ api.osc_w0f_for_note note fine ∧ api.osc_w0f_for_note note fine ≤ 1 / 2)
    (s : Oscillator) (hs : PhaseInv s) (c : Call) : PhaseInv (Call.run api s c) := by
  cases c with
  | setWaveform index => exact hs
  | setModulation modulation => exact hs
  | setPitch pitch =>
    exact ⟨hs.1, htab _ _ (Nat.mod_lt _ (by norm_num)) (Nat.mod_lt _ (by norm_num))⟩
  | render frames =>
    exact ⟨renderLoop_phase_mem api _ _ _ _ hs.2.1 hs.2.2 frames _ hs.1.1 hs.1.2, hs.2⟩

theorem foldl_phaseInv (api : OscApi)
    (htab : ∀ note fine : ℕ, note < 256 → fine < 256 →
      0 ≤ api.osc_w0f_for_note note fine ∧ api.osc_w0f_for_note note fine ≤ 1 / 2)
    (calls : List Call) : ∀ s : Oscillator, PhaseInv s →
      PhaseInv (calls.foldl (Call.run api) s) := by
  induction calls with
  | nil =>
    intro s hs
    exact hs
  | cons c cs ih =>
    intro s hs
    exact ih _ (run_phaseInv api htab s hs c)

theorem modulation_product_bounds (m sine : ℚ) (m0 : 0 ≤ m) (m1 : m ≤ 1)
    (s0 : -1 ≤ sine) (s1 : sine ≤ 1) :
    -(3 / 4) ≤ m * (3 / 4) * sine ∧ m * (3 / 4) * sine ≤ 3 / 4 := by
  have hd0 : 0 ≤ m * (3 / 4) := by positivity
  have hd1 : m * (3 / 4) ≤ 3 / 4 := by linarith
  have hu : m * (3 / 4) * sine ≤ m * (3 / 4) * 1 := mul_le_mul_of_nonneg_left s1 hd0
  have hl : m * (3 / 4) * (-1) ≤ m * (3 / 4) * sine := mul_le_mul_of_nonneg_left s0 hd0
  constructor <;> linarith

end demo

namespace demo

theorem sampleApi_table_bounds (note fine : ℕ) (hn : note < 256) (hf : fine < 256) :
    0 ≤ sampleApi.osc_w0f_for_note note fine ∧ sampleApi.osc_w0f_for_note note fine ≤ 1 / 2 := by
  show (0 : ℚ) ≤ ((256 * note + fine : ℕ) : ℚ) / 131072
    ∧ ((256 * note + fine : ℕ) : ℚ) / 131072 ≤ 1 / 2
  have h : ((256 * note + fine : ℕ) : ℚ) ≤ 65535 := by exact_mod_cast (by omega : 256 * note + fine ≤ 65535)
  constructor
  · positivity
  · linarith

theorem sampleApi_table_mono (n1 f1 n2 f2 : ℕ) (_ : n1 < 256) (h1 : f1 < 256) (_ : n2 < 256)
    (_ : f2 < 256) (hle : n1 < n2 ∨ (n1 = n2 ∧ f1 ≤ f2)) :
    sampleApi.osc_w0f_for_note n1 f1 ≤ sampleApi.osc_w0f_for_note n2 f2 := by
  show ((256 * n1 + f1 : ℕ) : ℚ) / 131072 ≤ ((256 * n2 + f2 : ℕ) : ℚ) / 131072
  have h : ((256 * n1 + f1 : ℕ) : ℚ) ≤ ((256 * n2 + f2 : ℕ) : ℚ) := by
    exact_mod_cast (by omega : 256 * n1 + f1 ≤ 256 * n2 + f2)
  linarith

end demo

/-- C6: starting from a freshly constructed oscillator (phase 0), after every
call of any sequence of `setWaveform` / `setModulation` / `setPitch` / `render`
calls the stored phase is in `[0, 1)`, provided every value of the pitch table
is in `[0, 0.5]`. -/
theorem C6_phase_stays_in_unit_interval (api : demo.OscApi)
    (htab : ∀ note fine : ℕ, note < 256 → fine < 256 →
      0 ≤ api.osc_w0f_for_note note fine ∧ api.osc_w0f_for_note note fine ≤ 1 / 2)
    (calls : List demo.Call) (k : ℕ) :
    0 ≤ (demo.runCalls api (calls.take k)).m_phase
    ∧ (demo.runCalls api (calls.take k)).m_phase < 1 := by
  have hinit : demo.PhaseInv {} := by
    unfold demo.PhaseInv
    norm_num
  exact (demo.foldl_phaseInv api htab (calls.take k) {} hinit).1

/-- Witness of C6: the stand-in host, middle C then a block of 64 frames. -/
theorem C6_phase_stays_in_unit_interval_witness :
    0 ≤ (demo.runCalls demo.sampleApi
        ([demo.Call.setPitch 0x3c00, demo.Call.render 64].take 2)).m_phase
    ∧ (demo.runCalls demo.sampleApi
        ([demo.Call.setPitch 0x3c00, demo.Call.render 64].take 2)).m_phase < 1 :=
  C6_phase_stays_in_unit_interval demo.sampleApi demo.sampleApi_table_bounds
    [demo.Call.setPitch 0x3c00, demo.Call.render 64] 2

namespace demo

/-- In exact arithmetic the modulated phase is in `[0, 1)`: with the phase in
`[0, 1)`, the stored modulation in `[0, 1]` and a sine value in `[-1, 1]` the
sum lies in `(-0.75, 1.75)` and one conditional correction suffices. -/
theorem modulatedPhase_exact_range (phase modulation sine : ℚ)
    (h0 : 0 ≤ phase) (h1 : phase < 1) (m0 : 0 ≤ modulation) (m1 : modulation ≤ 1)
    (s0 : -1 ≤ sine) (s1 : sine ≤ 1) :
    0 ≤ modulatedPhase phase (modulation * (3 / 4)) sine
    ∧ modulatedPhase phase (modulation * (3 / 4)) sine < 1 := by
  have hb := modulation_product_bounds modulation sine m0 m1 s0 s1
  unfold modulatedPhase
  split_ifs with ha hb2
  · constructor <;> linarith
  · constructor <;> linarith
  · push_neg at ha hb2
    exact ⟨ha, hb2⟩

end demo

namespace logue

end logue

namespace demo

theorem clampPitch_range (pitch : ℤ) : 0 ≤ clampPitch pitch ∧ clampPitch pitch ≤ 0x7fff := by
  unfold clampPitch
  split_ifs <;> omega

theorem lowByte_eq (v : ℤ) (_ : 0 ≤ v) (_ : v < 4294967296) :
    lowByte v = (v % 256).toNat := by
  unfold lowByte
  have e : (0xff : ℕ) = 2 ^ 8 - 1 := by norm_num
  rw [e, Nat.and_pow_two_sub_one_eq_mod]
  norm_num
  omega

theorem pitchTableArgs_eq (c : ℤ) (h0 : 0 ≤ c) (h1 : c ≤ 0x7fff) :
    pitchTableArgs c = ((c / 256).toNat, (c % 256).toNat) := by
  unfold pitchTableArgs
  have hs : c >>> (8 : ℕ) = c / 256 := by
    rw [Int.shiftRight_eq_div_pow]
    norm_num
  rw [hs, lowByte_eq (c / 256) (by omega) (by omega), lowByte_eq c h0 (by omega)]
  congr 2
  omega

theorem clampPitch_mono (p q : ℤ) (h : p ≤ q) : clampPitch p ≤ clampPitch q := by
  unfold clampPitch
  split_ifs <;> omega

end demo

/-- C8: `setPitch(p)` works on the clamped value `c` (`0` for `p < 0`, `0x7fff`
for `p ≥ 0x7fff`, `p` otherwise): it stores `note = c / 256`, which lies in
`[0, 127.99609375]`, and takes the phase increment from the pitch table at the
byte pair `(c div 256, c mod 256)`, whose note byte is at most 127. -/
theorem C8_setPitch_clamps (api : demo.OscApi) (p : ℤ) (s : demo.Oscillator) :
    demo.clampPitch p = (if p < 0 then 0 else if p ≥ 0x7fff then 0x7fff else p)
    ∧ (demo.setPitch api p s).m_note = (demo.clampPitch p : ℚ) / 256
    ∧ 0 ≤ (demo.setPitch api p s).m_note
    ∧ (demo.setPitch api p s).m_note ≤ 127.99609375
    ∧ demo.pitchTableArgs (demo.clampPitch p)
        = ((demo.clampPitch p / 256).toNat, (demo.clampPitch p % 256).toNat)
    ∧ (demo.pitchTableArgs (demo.clampPitch p)).1 ≤ 127
    ∧ (demo.pitchTableArgs (demo.clampPitch p)).2 ≤ 255
    ∧ (demo.setPitch api p s).m_phaseDelta
        = api.osc_w0f_for_note (demo.clampPitch p / 256).toNat (demo.clampPitch p % 256).toNat := by
  have hc := demo.clampPitch_range p
  have ha := demo.pitchTableArgs_eq (demo.clampPitch p) hc.1 hc.2
  have hnote : (demo.setPitch api p s).m_note = (demo.clampPitch p : ℚ) / 256 := by
    unfold demo.setPitch logue.s32ToFloat logue.pow2f
    norm_num
    ring
  have hq0 : (0 : ℚ) ≤ (demo.clampPitch p : ℚ) := by exact_mod_cast hc.1
  have hq1 : (demo.clampPitch p : ℚ) ≤ 32767 := by exact_mod_cast hc.2
  refine ⟨rfl, hnote, ?_, ?_, ha, ?_, ?_, ?_⟩
  · rw [hnote]
    positivity
  · rw [hnote]
    norm_num
    linarith
  · rw [ha]
    show (demo.clampPitch p / 256).toNat ≤ 127
    omega
  · rw [ha]
    show (demo.clampPitch p % 256).toNat ≤ 255
    omega
  · show api.osc_w0f_for_note (demo.pitchTableArgs (demo.clampPitch p)).1
      (demo.pitchTableArgs (demo.clampPitch p)).2 = _
    rw [ha]

/-- C9: if the pitch table is non-decreasing in the lexicographic order of its
byte pair `(note, fine)`, then the phase increment stored by `setPitch` is
non-decreasing in the pitch: `p ≤ q` gives
`phaseDelta` after `setPitch(p)` `≤` `phaseDelta` after `setPitch(q)`. -/
theorem C9_setPitch_monotone (api : demo.OscApi)
    (hmono : ∀ n1 f1 n2 f2 : ℕ, n1 < 256 → f1 < 256 → n2 < 256 → f2 < 256 →
      (n1 < n2 ∨ (n1 = n2 ∧ f1 ≤ f2)) →
      api.osc_w0f_for_note n1 f1 ≤ api.osc_w0f_for_note n2 f2)
    (p q : ℤ) (hpq : p ≤ q) (s t : demo.Oscillator) :
    (demo.setPitch api p s).m_phaseDelta ≤ (demo.setPitch api q t).m_phaseDelta := by
  have hp := demo.clampPitch_range p
  have hq := demo.clampPitch_range q
  have hm := demo.clampPitch_mono p q hpq
  show api.osc_w0f_for_note (demo.pitchTableArgs (demo.clampPitch p)).1
      (demo.pitchTableArgs (demo.clampPitch p)).2
    ≤ api.osc_w0f_for_note (demo.pitchTableArgs (demo.clampPitch q)).1
      (demo.pitchTableArgs (demo.clampPitch q)).2
  rw [demo.pitchTableArgs_eq _ hp.1 hp.2, demo.pitchTableArgs_eq _ hq.1 hq.2]
  apply hmono
  · show (demo.clampPitch p / 256).toNat < 256
    omega
  · show (demo.clampPitch p % 256).toNat < 256
    omega
  · show (demo.clampPitch q / 256).toNat < 256
    omega
  · show (demo.clampPitch q % 256).toNat < 256
    omega
  · show (demo.clampPitch p / 256).toNat < (demo.clampPitch q / 256).toNat
      ∨ ((demo.clampPitch p / 256).toNat = (demo.clampPitch q / 256).toNat
        ∧ (demo.clampPitch p % 256).toNat ≤ (demo.clampPitch q % 256).toNat)
    omega

/-- Witness of C9 on the stand-in host: a negative pitch against middle C. -/
theorem C9_setPitch_monotone_witness :
    (-5 : ℤ) ≤ 0x3c00
    ∧ (demo.setPitch demo.sampleApi (-5) {}).m_phaseDelta
        ≤ (demo.setPitch demo.sampleApi 0x3c00 {}).m_phaseDelta :=
  ⟨by norm_num,
    C9_setPitch_monotone demo.sampleApi demo.sampleApi_table_mono (-5) 0x3c00 (by norm_num) {} {}⟩

/-- C10: for a waveform index outside `{0, 1, 2}`, `render` after
`setWaveform(w)` writes the same samples and leaves the same phase (and the same
note, phase increment and modulation) as `render` after `setWaveform(2)`
(Sawtooth) from the same state. -/
theorem C10_unknown_waveform_is_sawtooth (api : demo.OscApi) (w : ℕ)
    (h0 : w ≠ 0) (h1 : w ≠ 1) (h2 : w ≠ 2) (s : demo.Oscillator) (frames : ℕ) :
    (demo.render api frames (demo.setWaveform w s)).1
        = (demo.render api frames (demo.setWaveform demo.Sawtooth s)).1
    ∧ (demo.render api frames (demo.setWaveform w s)).2.m_phase
        = (demo.render api frames (demo.setWaveform demo.Sawtooth s)).2.m_phase
    ∧ (demo.render api frames (demo.setWaveform w s)).2.m_note
        = (demo.render api frames (demo.setWaveform demo.Sawtooth s)).2.m_note
    ∧ (demo.render api frames (demo.setWaveform w s)).2.m_phaseDelta
        = (demo.render api frames (demo.setWaveform demo.Sawtooth s)).2.m_phaseDelta
    ∧ (demo.render api frames (demo.setWaveform w s)).2.m_modulation
        = (demo.render api frames (demo.setWaveform demo.Sawtooth s)).2.m_modulation := by
  have hsel : demo.selectWave api (demo.setWaveform w s)
      = demo.selectWave api (demo.setWaveform demo.Sawtooth s) := by
    unfold demo.selectWave demo.setWaveform demo.Square demo.Parabola demo.Sawtooth
    simp [h0, h1, h2]
  unfold demo.render
  rw [hsel]
  exact ⟨rfl, rfl, rfl, rfl, rfl⟩

/-- Witness of C10 at waveform index 7 on the stand-in host, three frames. -/
theorem C10_unknown_waveform_is_sawtooth_witness :
    (demo.render demo.sampleApi 3 (demo.setWaveform 7 {})).1
      = (demo.render demo.sampleApi 3 (demo.setWaveform demo.Sawtooth {})).1 :=
  (C10_unknown_waveform_is_sawtooth demo.sampleApi 7 (by decide) (by decide) (by decide) {} 3).1

/-- C11: `setModulation(m)` stores `min(1, max(0, m))`, that is `0` for `m < 0`,
`1` for `m > 1` and `m` otherwise; the stored value is in `[0, 1]`, and setting
the stored value again changes nothing. -/
theorem C11_setModulation_clamps (m : ℚ) (s : demo.Oscillator) :
    (demo.setModulation m s).m_modulation = min 1 (max 0 m)
    ∧ (demo.setModulation m s).m_modulation = (if m < 0 then 0 else if 1 < m then 1 else m)
    ∧ 0 ≤ (demo.setModulation m s).m_modulation
    ∧ (demo.setModulation m s).m_modulation ≤ 1
    ∧ demo.setModulation (demo.setModulation m s).m_modulation (demo.setModulation m s)
        = demo.setModulation m s := by
  have hv : (demo.setModulation m s).m_modulation
      = (if m < 0 then 0 else if 1 < m then 1 else m) := rfl
  refine ⟨?_, hv, ?_, ?_, ?_⟩
  · rw [hv]
    split_ifs with h1 h2
    · rw [max_eq_left h1.le, min_eq_right (by norm_num)]
    · rw [max_eq_right (by linarith), min_eq_left h2.le]
    · push_neg at h1 h2
      rw [max_eq_right h1, min_eq_right h2]
  · rw [hv]
    split_ifs with h1 h2
    · exact le_refl 0
    · norm_num
    · exact not_lt.mp h1
  · rw [hv]
    split_ifs with h1 h2
    · norm_num
    · exact le_refl 1
    · exact not_lt.mp h2
  · have h0 : ¬ (demo.setModulation m s).m_modulation < 0 := by
      rw [hv]
      split_ifs with h1 h2
      · norm_num
      · norm_num
      · exact h1
    have h1 : ¬ (demo.setModulation m s).m_modulation > 1 := by
      rw [hv]
      split_ifs with h1 h2
      · norm_num
      · norm_num
      · exact h2
    show ({ demo.setModulation m s with
        m_modulation :=
          if (demo.setModulation m s).m_modulation < 0 then 0
          else if (demo.setModulation m s).m_modulation > 1 then 1
          else (demo.setModulation m s).m_modulation } : demo.Oscillator)
      = demo.setModulation m s
    rw [if_neg h0, if_neg h1]

namespace logue

theorem memZeroBytes_none (fuel : ℕ) : ∀ st : ZeroLoop, st.size ≠ 0 →
    memZeroBytes fuel st = none := by
  induction fuel with
  | zero =>
    intro st _
    rfl
  | succ k ih =>
    intro st hs
    unfold memZeroBytes
    rw [if_pos hs]
    exact ih _ hs

theorem installFallback_none (fuel : ℕ) : Panel.installFallback fuel = none := by
  unfold Panel.installFallback
  rw [memZeroBytes_none fuel _ (by decide)]

end logue

namespace logue

theorem specBlockSum_eq (flash : ℕ → ℕ) (i : ℕ) :
    specBlockSum flash i
      = (flash (0x08000000 + 32 * i) % 2 ^ 32 + flash (0x08000000 + 32 * i + 4) % 2 ^ 32
          + flash (0x08000000 + 32 * i + 8) % 2 ^ 32 + flash (0x08000000 + 32 * i + 12) % 2 ^ 32
          + flash (0x08000000 + 32 * i + 16) % 2 ^ 32 + flash (0x08000000 + 32 * i + 20) % 2 ^ 32
          + flash (0x08000000 + 32 * i + 24) % 2 ^ 32 + flash (0x08000000 + 32 * i + 28) % 2 ^ 32)
        % 2 ^ 32 := by
  unfold specBlockSum
  have hr : List.range 8 = [0, 1, 2, 3, 4, 5, 6, 7] := by decide
  rw [hr]
  simp only [List.map_cons, List.map_nil, List.sum_cons, List.sum_nil, Nat.mul_zero,
    Nat.add_zero, Nat.mul_one]
  congr 1
  ring

theorem checksumLoop_zero (flash : ℕ → ℕ) (address blocks hash : ℕ) :
    checksumLoop flash 0 address blocks hash = none := rfl

theorem checksumLoop_succ (flash : ℕ → ℕ) (fuel address blocks hash : ℕ) :
    checksumLoop flash (fuel + 1) address blocks hash
      = if (blocks + 2 ^ 32 - 1) % 2 ^ 32 ≠ 0 then
          checksumLoop flash fuel (address + 32) ((blocks + 2 ^ 32 - 1) % 2 ^ 32)
            (specMix (hash ^^^ ((flash address % 2 ^ 32 + flash (address + 4) % 2 ^ 32
              + flash (address + 8) % 2 ^ 32 + flash (address + 12) % 2 ^ 32
              + flash (address + 16) % 2 ^ 32 + flash (address + 20) % 2 ^ 32
              + flash (address + 24) % 2 ^ 32 + flash (address + 28) % 2 ^ 32) % 2 ^ 32)))
        else some (specMix (hash ^^^ ((flash address % 2 ^ 32 + flash (address + 4) % 2 ^ 32
              + flash (address + 8) % 2 ^ 32 + flash (address + 12) % 2 ^ 32
              + flash (address + 16) % 2 ^ 32 + flash (address + 20) % 2 ^ 32
              + flash (address + 24) % 2 ^ 32 + flash (address + 28) % 2 ^ 32) % 2 ^ 32))) :=
  rfl

theorem checksumLoop_eq (flash : ℕ → ℕ) (m : ℕ) : ∀ (i h fuel : ℕ), m + 1 < 2 ^ 32 →
    checksumLoop flash fuel (0x08000000 + 32 * i) (m + 1) h
      = if fuel ≤ m then none
        else some ((List.range' i (m + 1)).foldl
          (fun hash b => specMix (hash ^^^ specBlockSum flash b)) h) := by
  induction m with
  | zero =>
    intro i h fuel _
    cases fuel with
    | zero =>
      rw [checksumLoop_zero, if_pos (le_refl 0)]
    | succ f =>
      rw [checksumLoop_succ, if_neg (by norm_num), if_neg (by omega), List.range'_succ i 0 1,
        List.foldl_cons, specBlockSum_eq]
      rfl
  | succ k ih =>
    intro i h fuel hm
    cases fuel with
    | zero =>
      rw [checksumLoop_zero, if_pos (Nat.zero_le _)]
    | succ f =>
      have hb : (k + 1 + 1 + 2 ^ 32 - 1) % 2 ^ 32 = k + 1 := by omega
      have ha : 0x08000000 + 32 * i + 32 = 0x08000000 + 32 * (i + 1) := by ring
      rw [checksumLoop_succ, hb, if_pos (by omega), ha, ih (i + 1) _ f (by omega),
        List.range'_succ i (k + 1) 1, List.foldl_cons, specBlockSum_eq]
      by_cases hf : f ≤ k
      · rw [if_pos hf, if_pos (by omega)]
      · rw [if_neg hf, if_neg (by omega)]

theorem flashChecksum_eq (flash : ℕ → ℕ) (k : ℕ) :
    flashChecksum flash (384 + k) = some (specChecksum flash) := by
  unfold flashChecksum specChecksum
  have h := checksumLoop_eq flash 383 0 0x1200 (384 + k) (by norm_num)
  rw [if_neg (by omega)] at h
  rw [List.range_eq_range']
  simpa using h

theorem flashChecksum_none (flash : ℕ → ℕ) (fuel : ℕ) (h : fuel < 384) :
    flashChecksum flash fuel = none := by
  unfold flashChecksum
  have h1 := checksumLoop_eq flash 383 0 0x1200 fuel (by norm_num)
  rw [if_pos (by omega)] at h1
  simpa using h1

end logue

namespace logue

set_option maxRecDepth 100000 in
theorem specChecksum_blank : specChecksum (fun _ => 0) = 4147582159 := by decide

theorem initIsValid_blank_flash (fuel : ℕ) (m : MainState) (l : LfoState) (e : EnvelopeState)
    (v : VcoStateArray) :
    Panel.initIsValid Platform.prologue fuel (fun _ => 0) (some m) (some l) (some e) (some v)
        = none
    ∨ Panel.initIsValid Platform.prologue fuel (fun _ => 0) (some m) (some l) (some e) (some v)
        = some false := by
  have hc := specChecksum_blank
  unfold Panel.initIsValid
  rw [if_pos (by simp)]
  by_cases hf : fuel < 384
  · left
    rw [flashChecksum_none _ fuel hf]
  · right
    obtain ⟨k, rfl⟩ : ∃ k, fuel = 384 + k := ⟨fuel - 384, by omega⟩
    rw [flashChecksum_eq, hc]
    rfl

end logue

/-- C12 (evaluation of the code on the invalid path): with a flash image whose
checksum is not the expected one, or with a null pointer, the constructor of
`Panel` does not return for any amount of fuel, so no accessor is ever called
on the fallback image. The image the fallback branch would install does carry
the documented values: cutoff `0x2000`, EG velocity `0x2000`, AMP velocity
`0x1400`, both pitches `0`, and velocities `1.0` as floats. -/
theorem C12_fallback_never_installed :
    (∀ fuel : ℕ, logue.Panel.init logue.Platform.prologue fuel (fun _ => 0)
        (some {}) (some {}) (some {}) (some {}) = none)
    ∧ (∀ (platform : logue.Platform) (fuel : ℕ) (flash : ℕ → ℕ),
        logue.Panel.init platform fuel flash none (some {}) (some {}) (some {}) = none)
    ∧ logue.Panel.filterCutoffControl logue.Platform.prologue logue.Panel.fallbackImage = 0x2000
    ∧ logue.Panel.rawEgVelocity logue.Platform.prologue logue.Panel.fallbackImage = 0x2000
    ∧ logue.Panel.rawAmpVelocity logue.Platform.prologue logue.Panel.fallbackImage = 0x1400
    ∧ logue.Panel.vcoPitch logue.Platform.prologue logue.Panel.fallbackImage 0 = 0
    ∧ logue.Panel.vcoPitch logue.Platform.prologue logue.Panel.fallbackImage 1 = 0
    ∧ logue.Panel.egVelocity logue.Platform.prologue logue.Panel.fallbackImage = 1
    ∧ logue.Panel.ampVelocity logue.Platform.prologue logue.Panel.fallbackImage = 1 := by
  refine ⟨?_, ?_, rfl, rfl, rfl, rfl, rfl, ?_, ?_⟩
  · intro fuel
    unfold logue.Panel.init
    rcases logue.initIsValid_blank_flash fuel {} {} {} {} with h | h
    · rw [h]
    · rw [h]
      exact logue.installFallback_none fuel
  · intro platform fuel flash
    have h : logue.Panel.initIsValid platform fuel flash none (some {}) (some {}) (some {})
        = some false := by
      unfold logue.Panel.initIsValid
      rw [if_neg (by simp)]
    unfold logue.Panel.init
    rw [h]
    exact logue.installFallback_none fuel
  · norm_num [logue.Panel.egVelocity, logue.Panel.rawEgVelocity, logue.Panel.fallbackImage]
  · norm_num [logue.Panel.ampVelocity, logue.Panel.rawAmpVelocity, logue.Panel.fallbackImage]

/-- C13 (evaluation of the code): `memZeroBytes` never changes `size`, so for
every non-zero size (160 bytes in `init`) the loop does not exit within any
amount of fuel, and the fallback branch of `init` therefore never completes;
only a call with size 0 returns, having written nothing. -/
theorem C13_memZeroBytes_never_returns :
    (∀ (fuel : ℕ) (mem : ℕ → ℕ) (ptr : ℕ),
        logue.memZeroBytes fuel { mem := mem, ptr := ptr, size := 160 } = none)
    ∧ (∀ (fuel : ℕ) (mem : ℕ → ℕ) (ptr size : ℕ),
        logue.memZeroBytes fuel { mem := mem, ptr := ptr, size := size + 1 } = none)
    ∧ (∀ fuel : ℕ, logue.Panel.installFallback fuel = none)
    ∧ (∀ (fuel : ℕ) (mem : ℕ → ℕ) (ptr : ℕ),
        (logue.memZeroBytes (fuel + 1) { mem := mem, ptr := ptr, size := 0 }).map
          (fun st => st.ptr) = some ptr) := by
  refine ⟨?_, ?_, logue.installFallback_none, ?_⟩
  · intro fuel mem ptr
    exact logue.memZeroBytes_none fuel _ (by simp)
  · intro fuel mem ptr size
    exact logue.memZeroBytes_none fuel _ (Nat.succ_ne_zero size)
  · intro fuel mem ptr
    unfold logue.memZeroBytes
    simp

namespace logue

set_option maxRecDepth 100000 in
theorem specChecksum_sampleFlash : specChecksum sampleFlash = 0x2a6b3685 := by decide

theorem initIsValid_eq (platform : Platform) (flash : ℕ → ℕ) (k : ℕ) (m : MainState)
    (l : LfoState) (e : EnvelopeState) (v : VcoStateArray) :
    Panel.initIsValid platform (384 + k) flash (some m) (some l) (some e) (some v)
      = some (decide (specChecksum flash = kExpectedFlashHash12k platform)) := by
  unfold Panel.initIsValid
  rw [if_pos (by simp), flashChecksum_eq]

theorem byte_eq (n k : ℕ) : ((n >>> k) &&& 0xff) % 256 = n / 2 ^ k % 256 := by
  have e : (0xff : ℕ) = 2 ^ 8 - 1 := by norm_num
  rw [Nat.shiftRight_eq_div_pow, e, Nat.and_pow_two_sub_one_eq_mod]
  norm_num

end logue

/-- C14 as stated fails: on a Prologue build, with all four pointers non-null
and a flash image whose checksum is `0x2a6b3685` (the known-good Minilogue XD
value, so a member of the table), `init` judges the host state invalid. -/
theorem C14_counterexample :
    logue.flashChecksum logue.sampleFlash 384 = some 0x2a6b3685
    ∧ ((0x2a6b3685 : ℕ) = logue.FirmwareHashPrologue210
        ∨ (0x2a6b3685 : ℕ) = logue.FirmwareHashMinilogueXD210)
    ∧ logue.Panel.initIsValid logue.Platform.prologue 384 logue.sampleFlash
        (some {}) (some {}) (some {}) (some {}) = some false := by
  have hc := logue.flashChecksum_eq logue.sampleFlash 0
  rw [logue.specChecksum_sampleFlash] at hc
  refine ⟨hc, Or.inr rfl, ?_⟩
  have h := logue.initIsValid_eq logue.Platform.prologue logue.sampleFlash 0 {} {} {} {}
  rw [logue.specChecksum_sampleFlash] at h
  exact h

/-- C14 amended: with enough fuel for the 384 iterations `init` always reaches
its validity decision, and judges the host state valid exactly when all four
pointers are non-null and the checksum of the first 12 KiB equals the single
value compiled in for the platform of the build (`0x0eff0f53` for Prologue,
`0x2a6b3685` for Minilogue XD); when valid, the constructor returns with the
four pointers still bound to the host state. -/
theorem C14_init_validity (platform : logue.Platform) (flash : ℕ → ℕ) (k : ℕ)
    (main : Option logue.MainState) (lfo : Option logue.LfoState)
    (envelope : Option logue.EnvelopeState) (vco : Option logue.VcoStateArray) :
    (∃ b : Bool, logue.Panel.initIsValid platform (384 + k) flash main lfo envelope vco = some b)
    ∧ (logue.Panel.initIsValid platform (384 + k) flash main lfo envelope vco = some true
        ↔ (main ≠ none ∧ lfo ≠ none ∧ envelope ≠ none ∧ vco ≠ none
            ∧ specChecksum flash = logue.kExpectedFlashHash12k platform))
    ∧ logue.kExpectedFlashHash12k logue.Platform.prologue = 0x0eff0f53
    ∧ logue.kExpectedFlashHash12k logue.Platform.minilogueXD = 0x2a6b3685
    ∧ (logue.Panel.initIsValid platform (384 + k) flash main lfo envelope vco = some true →
        ∃ (m : logue.MainState) (l : logue.LfoState) (e : logue.EnvelopeState)
          (v : logue.VcoStateArray),
          main = some m ∧ lfo = some l ∧ envelope = some e ∧ vco = some v
          ∧ logue.Panel.init platform (384 + k) flash main lfo envelope vco
              = some { m_main := m, m_lfo := l, m_envelope := e, m_vco := v }) := by
  have key : (∃ b : Bool,
        logue.Panel.initIsValid platform (384 + k) flash main lfo envelope vco = some b)
      ∧ (logue.Panel.initIsValid platform (384 + k) flash main lfo envelope vco = some true
        ↔ (main ≠ none ∧ lfo ≠ none ∧ envelope ≠ none ∧ vco ≠ none
            ∧ specChecksum flash = logue.kExpectedFlashHash12k platform)) := by
    cases main with
    | none => simp [logue.Panel.initIsValid]
    | some m =>
      cases lfo with
      | none => simp [logue.Panel.initIsValid]
      | some l =>
        cases envelope with
        | none => simp [logue.Panel.initIsValid]
        | some e =>
          cases vco with
          | none => simp [logue.Panel.initIsValid]
          | some v =>
            rw [logue.initIsValid_eq]
            simp
  refine ⟨key.1, key.2, rfl, rfl, ?_⟩
  intro hv
  obtain ⟨hm, hl, he, hvc, _⟩ := key.2.mp hv
  obtain ⟨m, rfl⟩ := Option.ne_none_iff_exists'.mp hm
  obtain ⟨l, rfl⟩ := Option.ne_none_iff_exists'.mp hl
  obtain ⟨e, rfl⟩ := Option.ne_none_iff_exists'.mp he
  obtain ⟨v, rfl⟩ := Option.ne_none_iff_exists'.mp hvc
  refine ⟨m, l, e, v, rfl, rfl, rfl, rfl, ?_⟩
  unfold logue.Panel.init
  rw [hv]

/-- Witness of the amended C14: a Minilogue XD build on the sample flash image,
whose checksum is the expected `0x2a6b3685`, keeps the host pointers. -/
theorem C14_init_validity_witness :
    logue.Panel.initIsValid logue.Platform.minilogueXD (384 + 0) logue.sampleFlash
        (some {}) (some {}) (some {}) (some {}) = some true
    ∧ ∃ (m : logue.MainState) (l : logue.LfoState) (e : logue.EnvelopeState)
        (v : logue.VcoStateArray),
        (some {} : Option logue.MainState) = some m ∧ (some {} : Option logue.LfoState) = some l
        ∧ (some {} : Option logue.EnvelopeState) = some e
        ∧ (some {} : Option logue.VcoStateArray) = some v
        ∧ logue.Panel.init logue.Platform.minilogueXD (384 + 0) logue.sampleFlash
            (some {}) (some {}) (some {}) (some {})
            = some { m_main := m, m_lfo := l, m_envelope := e, m_vco := v } :=
  have hv : logue.Panel.initIsValid logue.Platform.minilogueXD (384 + 0) logue.sampleFlash
      (some {}) (some {}) (some {}) (some {}) = some true := by
    rw [logue.initIsValid_eq, logue.specChecksum_sampleFlash]
    rfl
  ⟨hv, (C14_init_validity logue.Platform.minilogueXD logue.sampleFlash 0
    (some {}) (some {}) (some {}) (some {})).2.2.2.2 hv⟩

/-- C15: given fuel for at least 384 iterations, the checksum loop of
`Panel::init` returns the reference fold: from `0x1200`, for each of the 384
blocks of eight 32-bit words in order, `hash := mix(hash XOR block sum mod
2^32)` with `mix` the shifts by 13 (left), 17 (right) and 5 (left). With less
fuel the loop has not finished. -/
theorem C15_checksum_is_reference_fold (flash : ℕ → ℕ) (k : ℕ) :
    logue.flashChecksum flash (384 + k) = some (specChecksum flash)
    ∧ logue.flashChecksum flash 383 = none
    ∧ 384 * 8 = 3072 ∧ 3072 * 4 = 12288 ∧ 12288 = 12 * 1024 :=
  ⟨logue.flashChecksum_eq flash k, logue.flashChecksum_none flash 383 (by norm_num),
    rfl, rfl, rfl⟩

/-- C16: on a Minilogue XD build `lfoPhase()` reports `0x7fffffff` when bit 0 of
the mode byte is set and the phase register is at least `0x80000000`, and the
register value otherwise; so in one-shot mode the reported phase is at most
`0x7fffffff`. On a Prologue build the register value is reported as is. -/
theorem C16_lfoPhase_one_shot (p : logue.Panel) :
    logue.Panel.lfoPhase logue.Platform.minilogueXD p
        = (if p.m_lfo.mode % 2 = 1 ∧ 0x80000000 ≤ p.m_lfo.phaseValue then 0x7fffffff
           else p.m_lfo.phaseValue)
    ∧ (p.m_lfo.mode % 2 = 1 → logue.Panel.lfoPhase logue.Platform.minilogueXD p ≤ 0x7fffffff)
    ∧ logue.Panel.lfoPhase logue.Platform.prologue p = p.m_lfo.phaseValue := by
  have h1 : logue.Panel.lfoPhase logue.Platform.minilogueXD p
      = (if p.m_lfo.mode % 2 = 1 ∧ 0x80000000 ≤ p.m_lfo.phaseValue then 0x7fffffff
         else p.m_lfo.phaseValue) := by
    unfold logue.Panel.lfoPhase logue.Panel.lfoIsOneShot
    simp only [Nat.and_one_is_mod, decide_eq_true_eq, ge_iff_le]
    have hm : p.m_lfo.mode % 2 ≠ 0 ↔ p.m_lfo.mode % 2 = 1 := by omega
    simp only [hm]
  refine ⟨h1, ?_, rfl⟩
  intro hm
  rw [h1]
  split_ifs with h
  · exact le_refl _
  · have : ¬ 0x80000000 ≤ p.m_lfo.phaseValue := fun hh => h ⟨hm, hh⟩
    omega

/-- Witness of C16: one-shot mode with the register at `0x90000000`. -/
theorem C16_lfoPhase_one_shot_witness :
    (1 : ℕ) % 2 = 1
    ∧ logue.Panel.lfoPhase logue.Platform.minilogueXD
        { m_main := {}, m_lfo := { mode := 1, phaseValue := 0x90000000 }, m_envelope := {},
          m_vco := {} } ≤ 0x7fffffff :=
  ⟨rfl, (C16_lfoPhase_one_shot
    { m_main := {}, m_lfo := { mode := 1, phaseValue := 0x90000000 }, m_envelope := {},
      m_vco := {} }).2.1 rfl⟩

/-- C17: on the STM32 targets the voice-card hash is 32-bit FNV-1a over the
twelve bytes of the three unique id words, words in order and bytes of a word
from least to most significant: from `0x811c9dc5`, per byte
`hash := ((hash XOR byte) * 0x01000193) mod 2^32`. -/
theorem C17_voice_hash_is_fnv1a (uniqueId0 uniqueId1 uniqueId2 : ℕ) :
    logue.VoiceID true uniqueId0 uniqueId1 uniqueId2
      = specFnv1a (specBytesLE uniqueId0 ++ specBytesLE uniqueId1 ++ specBytesLE uniqueId2) := by
  unfold logue.VoiceID logue.VoiceID.hash32 logue.VoiceID.hash8 specFnv1a specBytesLE
  simp only [logue.byte_eq, if_true, List.cons_append, List.nil_append, List.foldl_cons,
    List.foldl_nil]
  norm_num

/-! ## Entry points -/

theorem toInt32_range (n : ℕ) : -2147483648 ≤ toInt32 n ∧ toInt32 n ≤ 2147483647 := by
  unfold toInt32
  split_ifs with h
  · norm_num at h ⊢
    omega
  · norm_num at h ⊢
    omega

theorem shift28_range (n : ℕ) :
    -8 ≤ toInt32 n >>> (28 : ℕ) ∧ toInt32 n >>> (28 : ℕ) ≤ 7 := by
  have h := toInt32_range n
  rw [Int.shiftRight_eq_div_pow]
  norm_num
  omega

/-- C18: for every voice hash the intermediate value `int32(hash) >> 28` is in
`[-16, 15]`, non-negative values are incremented by one, and the resulting
detune is never zero and lies in `[-16, -1]` or `[1, 16]`; `OSC_INIT` stores
exactly this value for the hash delivered by `VoiceID`. -/
theorem C18_detune_nonzero_bounded (hash : ℕ) (stm32 : Bool)
    (uniqueId0 uniqueId1 uniqueId2 : ℕ) (g : Globals) :
    (-16 ≤ toInt32 hash >>> (28 : ℕ) ∧ toInt32 hash >>> (28 : ℕ) ≤ 15)
    ∧ detuneOfHash hash
        = (if 0 ≤ toInt32 hash >>> (28 : ℕ) then toInt32 hash >>> (28 : ℕ) + 1
           else toInt32 hash >>> (28 : ℕ))
    ∧ detuneOfHash hash ≠ 0
    ∧ ((-16 ≤ detuneOfHash hash ∧ detuneOfHash hash ≤ -1)
        ∨ (1 ≤ detuneOfHash hash ∧ detuneOfHash hash ≤ 16))
    ∧ (OSC_INIT stm32 uniqueId0 uniqueId1 uniqueId2 g).detune
        = detuneOfHash (logue.VoiceID stm32 uniqueId0 uniqueId1 uniqueId2)
    ∧ (OSC_INIT stm32 uniqueId0 uniqueId1 uniqueId2 g).detune ≠ 0 := by
  have key : ∀ h : ℕ, detuneOfHash h ≠ 0
      ∧ ((-16 ≤ detuneOfHash h ∧ detuneOfHash h ≤ -1)
        ∨ (1 ≤ detuneOfHash h ∧ detuneOfHash h ≤ 16)) := by
    intro h
    have hr := shift28_range h
    unfold detuneOfHash
    split_ifs with hx
    · constructor
      · omega
      · right
        omega
    · constructor
      · omega
      · left
        omega
  have hr := shift28_range hash
  refine ⟨⟨by omega, by omega⟩, rfl, (key hash).1, (key hash).2, rfl, ?_⟩
  exact (key _).1

/-- C19: with distinct parameter indices for shape and shift-shape,
`OSC_PARAM` at the shape index sets only `shape`, to `min(value, 1023) / 1024`;
at the shift-shape index it sets only `shiftShape`, to the same expression; at
any other index it changes nothing. The value stored is in `[0, 1023/1024]`,
and values in that range stay in it under every `OSC_PARAM` call. -/
theorem C19_OSC_PARAM_frame (kShape kShiftShape : ℕ) (hk : kShape ≠ kShiftShape)
    (index value : ℕ) (g : Globals) :
    OSC_PARAM kShape kShiftShape kShape value g
        = { g with shape := ((min value 1023 : ℕ) : ℚ) / 1024 }
    ∧ OSC_PARAM kShape kShiftShape kShiftShape value g
        = { g with shiftShape := ((min value 1023 : ℕ) : ℚ) / 1024 }
    ∧ (index ≠ kShape → index ≠ kShiftShape → OSC_PARAM kShape kShiftShape index value g = g)
    ∧ (0 ≤ (OSC_PARAM kShape kShiftShape kShape value g).shape
        ∧ (OSC_PARAM kShape kShiftShape kShape value g).shape ≤ 1023 / 1024)
    ∧ (0 ≤ (OSC_PARAM kShape kShiftShape kShiftShape value g).shiftShape
        ∧ (OSC_PARAM kShape kShiftShape kShiftShape value g).shiftShape ≤ 1023 / 1024)
    ∧ ((0 ≤ g.shape ∧ g.shape ≤ 1023 / 1024) ∧ (0 ≤ g.shiftShape ∧ g.shiftShape ≤ 1023 / 1024) →
        (0 ≤ (OSC_PARAM kShape kShiftShape index value g).shape
          ∧ (OSC_PARAM kShape kShiftShape index value g).shape ≤ 1023 / 1024)
        ∧ (0 ≤ (OSC_PARAM kShape kShiftShape index value g).shiftShape
          ∧ (OSC_PARAM kShape kShiftShape index value g).shiftShape ≤ 1023 / 1024)) := by
  have hconv : logue.u32ToFloat 10 (if value > 1023 then 1023 else value)
      = ((min value 1023 : ℕ) : ℚ) / 1024 := by
    have hmin : (if value > 1023 then 1023 else value) = min value 1023 := by
      split_ifs with h
      · exact (min_eq_right (by omega)).symm
      · exact (min_eq_left (by omega)).symm
    rw [hmin]
    unfold logue.u32ToFloat logue.pow2f
    norm_num
    ring
  have hlo : (0 : ℚ) ≤ ((min value 1023 : ℕ) : ℚ) / 1024 := by positivity
  have hhi : ((min value 1023 : ℕ) : ℚ) / 1024 ≤ 1023 / 1024 := by
    have : ((min value 1023 : ℕ) : ℚ) ≤ 1023 := by exact_mod_cast min_le_right value 1023
    linarith
  have e1 : OSC_PARAM kShape kShiftShape kShape value g
      = { g with shape := ((min value 1023 : ℕ) : ℚ) / 1024 } := by
    unfold OSC_PARAM
    rw [if_pos rfl, hconv]
  have e2 : OSC_PARAM kShape kShiftShape kShiftShape value g
      = { g with shiftShape := ((min value 1023 : ℕ) : ℚ) / 1024 } := by
    unfold OSC_PARAM
    rw [if_neg hk, if_pos rfl, hconv]
  refine ⟨e1, e2, ?_, ?_, ?_, ?_⟩
  · intro h1 h2
    unfold OSC_PARAM
    rw [if_neg (Ne.symm h1), if_neg (Ne.symm h2)]
  · rw [e1]
    exact ⟨hlo, hhi⟩
  · rw [e2]
    exact ⟨hlo, hhi⟩
  · intro hg
    by_cases h1 : index = kShape
    · subst h1
      rw [e1]
      exact ⟨⟨hlo, hhi⟩, hg.2⟩
    · by_cases h2 : index = kShiftShape
      · subst h2
        rw [e2]
        exact ⟨hg.1, ⟨hlo, hhi⟩⟩
      · have e3 : OSC_PARAM kShape kShiftShape index value g = g := by
          unfold OSC_PARAM
          rw [if_neg (Ne.symm h1), if_neg (Ne.symm h2)]
        rw [e3]
        exact hg

/-- Witness of C19 with the SDK's indices 6 and 7 and the out-of-range value
2000 on the state left by `OSC_INIT`. -/
theorem C19_OSC_PARAM_frame_witness :
    (6 : ℕ) ≠ 7
    ∧ OSC_PARAM 6 7 6 2000 (OSC_INIT false 0 0 0 {})
        = { OSC_INIT false 0 0 0 {} with shape := ((min 2000 1023 : ℕ) : ℚ) / 1024 } :=
  ⟨by decide, (C19_OSC_PARAM_frame 6 7 (by decide) 6 2000 (OSC_INIT false 0 0 0 {})).1⟩

theorem runCycles_mix (platform : logue.Platform) (api : demo.OscApi)
    (inputs : List CycleInput) : ∀ g : Globals,
    (∀ i ∈ inputs, g.shape + lfoAmplitude platform i.panel g.shiftShape = 1) →
    (runCycles platform api g inputs).mix = 1 - (1 - g.mix) * (9 / 10) ^ inputs.length := by
  induction inputs with
  | nil =>
    intro g _
    simp [runCycles]
  | cons i rest ih =>
    intro g ht
    have hi := ht i (List.mem_cons_self i rest)
    have hstep : runCycles platform api g (i :: rest)
        = runCycles platform api (OSC_CYCLE platform api i.panel i.pitch i.frames g).2 rest := rfl
    have hrest : ∀ j ∈ rest,
        (OSC_CYCLE platform api i.panel i.pitch i.frames g).2.shape
          + lfoAmplitude platform j.panel
              (OSC_CYCLE platform api i.panel i.pitch i.frames g).2.shiftShape = 1 :=
      fun j hj => ht j (List.mem_cons_of_mem i hj)
    have hmix : (OSC_CYCLE platform api i.panel i.pitch i.frames g).2.mix
        = g.mix + (1 - g.mix) * (1 / 10) := by
      show g.mix + (g.shape + lfoAmplitude platform i.panel g.shiftShape - g.mix) * (1 / 10)
        = g.mix + (1 - g.mix) * (1 / 10)
      rw [hi]
    rw [hstep, ih _ hrest, hmix, List.length_cons, pow_succ]
    ring

/-- C20: starting from a stored mix of 0 (as `OSC_INIT` leaves it), if the mix
target `shape + lfoAmplitude(shiftShape)` equals 1 in every block, then after
`k` calls of `OSC_CYCLE` the stored mix is `1 - 0.9^k`, for every `k` and
whatever pitch, frame count and remaining panel state each call sees. -/
theorem C20_mix_smoothing_closed_form (platform : logue.Platform) (api : demo.OscApi)
    (g : Globals) (inputs : List CycleInput) (h0 : g.mix = 0)
    (ht : ∀ i ∈ inputs, g.shape + lfoAmplitude platform i.panel g.shiftShape = 1) :
    (runCycles platform api g inputs).mix = 1 - (9 / 10) ^ inputs.length := by
  rw [runCycles_mix platform api inputs g ht, h0]
  ring

theorem sample_mix_target :
    sampleGlobals.shape
      + lfoAmplitude logue.Platform.prologue sampleInput.panel sampleGlobals.shiftShape = 1 := by
  have ha : lfoIntAmplitude 2 0x3fffffff = 1073741824 := by decide
  have hs : sampleGlobals.shape = 1023 / 1024 := by
    norm_num [sampleGlobals, OSC_PARAM, OSC_INIT, logue.u32ToFloat, logue.pow2f]
  have hss : sampleGlobals.shiftShape = 2 / 1024 := by
    norm_num [sampleGlobals, OSC_PARAM, OSC_INIT, logue.u32ToFloat, logue.pow2f]
  have hl : lfoAmplitude logue.Platform.prologue sampleInput.panel (2 / 1024) = 1 / 1024 := by
    show logue.s32ToFloat 31 (lfoIntAmplitude 2 0x3fffffff) * (2 / 1024) = 1 / 1024
    rw [ha]
    norm_num [logue.s32ToFloat, logue.pow2f]
  rw [hs, hss, hl]
  norm_num

/-- Witness of C20: two blocks on the sample state and host, where the mix
target is 1; the stored mix is `1 - 0.81`. -/
theorem C20_mix_smoothing_closed_form_witness :
    sampleGlobals.mix = 0
    ∧ (runCycles logue.Platform.prologue demo.sampleApi sampleGlobals
        [sampleInput, sampleInput]).mix = 1 - (9 / 10) ^ [sampleInput, sampleInput].length :=
  ⟨rfl, C20_mix_smoothing_closed_form logue.Platform.prologue demo.sampleApi sampleGlobals
    [sampleInput, sampleInput] rfl (by
      intro i hi
      have hi2 : i = sampleInput := by simpa using hi
      rw [hi2]
      exact sample_mix_target)⟩

/-! ## The mix of the two oscillators -/

namespace logue

theorem floatToS32_31_none (s : ℚ) (h : 1 ≤ s) : floatToS32 31 s = none := by
  have hx : (2147483648 : ℚ) ≤ s * 2 ^ 31 := by nlinarith
  have ht : (2147483648 : ℤ) ≤ truncate (s * 2 ^ 31) := by
    unfold truncate
    rw [if_pos (by linarith)]
    exact Int.le_floor.mpr (by exact_mod_cast hx)
  unfold floatToS32 castInt32
  rw [if_pos (by norm_num), pow2f_eq, if_neg]
  unfold INT32_MAX
  intro hc
  omega

end logue

theorem lfoIntAmplitude_range (waveform phase : ℕ) :
    -2147483648 ≤ lfoIntAmplitude waveform phase ∧ lfoIntAmplitude waveform phase ≤ 2147483647 := by
  unfold lfoIntAmplitude
  split_ifs
  · constructor <;> norm_num
  · constructor <;> norm_num
  · exact toInt32_range _
  · exact toInt32_range _
  · constructor <;> norm_num

theorem lfoAmplitude_abs_le (platform : logue.Platform) (panel : logue.Panel) (gain : ℚ) :
    |lfoAmplitude platform panel gain| ≤ |gain| := by
  have hr := lfoIntAmplitude_range (logue.Panel.lfoWaveform platform panel)
    (logue.Panel.lfoPhase platform panel)
  unfold lfoAmplitude logue.s32ToFloat
  rw [logue.pow2f_eq, abs_mul]
  have h1 : |((lfoIntAmplitude (logue.Panel.lfoWaveform platform panel)
      (logue.Panel.lfoPhase platform panel) : ℤ) : ℚ) * (1 / 2 ^ 31)| ≤ 1 := by
    rw [abs_le]
    have ha : ((-2147483648 : ℤ) : ℚ) ≤ (lfoIntAmplitude (logue.Panel.lfoWaveform platform panel)
        (logue.Panel.lfoPhase platform panel) : ℤ) := by exact_mod_cast hr.1
    have hb : ((lfoIntAmplitude (logue.Panel.lfoWaveform platform panel)
        (logue.Panel.lfoPhase platform panel) : ℤ) : ℚ) ≤ ((2147483647 : ℤ) : ℚ) := by
      exact_mod_cast hr.2
    push_cast at ha hb
    constructor <;> norm_num <;> linarith
  exact mul_le_of_le_one_left (abs_nonneg gain) h1

theorem clampMix_mem (mix : ℚ) : 0 ≤ clampMix mix ∧ clampMix mix ≤ 1 := by
  unfold clampMix
  split_ifs with h1 h2
  · norm_num
  · norm_num
  · exact ⟨not_lt.mp h1, not_lt.mp h2⟩

theorem OSC_CYCLE_mix (platform : logue.Platform) (api : demo.OscApi) (panel : logue.Panel)
    (pitch frames : ℕ) (g : Globals) :
    (OSC_CYCLE platform api panel pitch frames g).2.mix
      = g.mix + (mixTarget platform panel g - g.mix) * (1 / 10) := rfl

theorem mixTarget_range (platform : logue.Platform) (panel : logue.Panel) (g : Globals)
    (hs : 0 ≤ g.shape ∧ g.shape ≤ 1023 / 1024)
    (hss : 0 ≤ g.shiftShape ∧ g.shiftShape ≤ 1023 / 1024) :
    -1 ≤ mixTarget platform panel g ∧ mixTarget platform panel g ≤ 2 := by
  have h := lfoAmplitude_abs_le platform panel g.shiftShape
  rw [abs_of_nonneg hss.1, abs_le] at h
  unfold mixTarget
  constructor <;> linarith [h.1, h.2]

/-- C21 as stated fails: after `OSC_INIT`, shift-shape set to `1023/1024` and
one `OSC_CYCLE` with a square LFO in its second half, the stored mix is
negative, so it is neither in `[0, 1]` nor the clamped smoothed value. -/
theorem C21_counterexample :
    (OSC_CYCLE logue.Platform.prologue demo.sampleApi squarePanel 0x3c00 64
        (OSC_PARAM 6 7 7 1023 (OSC_INIT false 0 0 0 {}))).2.mix < 0
    ∧ (OSC_CYCLE logue.Platform.prologue demo.sampleApi squarePanel 0x3c00 64
        (OSC_PARAM 6 7 7 1023 (OSC_INIT false 0 0 0 {}))).2.mix
      ≠ clampMix ((OSC_PARAM 6 7 7 1023 (OSC_INIT false 0 0 0 {})).mix
          + (mixTarget logue.Platform.prologue squarePanel
                (OSC_PARAM 6 7 7 1023 (OSC_INIT false 0 0 0 {}))
              - (OSC_PARAM 6 7 7 1023 (OSC_INIT false 0 0 0 {})).mix) * (1 / 10)) := by
  have ha : lfoIntAmplitude 0 0x80000000 = -2147483647 := by decide
  have hm : (OSC_PARAM 6 7 7 1023 (OSC_INIT false 0 0 0 {})).mix = 0 := rfl
  have hs : (OSC_PARAM 6 7 7 1023 (OSC_INIT false 0 0 0 {})).shape = 0 := rfl
  have hss : (OSC_PARAM 6 7 7 1023 (OSC_INIT false 0 0 0 {})).shiftShape = 1023 / 1024 := by
    norm_num [OSC_PARAM, OSC_INIT, logue.u32ToFloat, logue.pow2f]
  have ht : mixTarget logue.Platform.prologue squarePanel
      (OSC_PARAM 6 7 7 1023 (OSC_INIT false 0 0 0 {})) = -(2147483647 / 2147483648) * (1023 / 1024) := by
    show (OSC_PARAM 6 7 7 1023 (OSC_INIT false 0 0 0 {})).shape
      + logue.s32ToFloat 31 (lfoIntAmplitude 0 0x80000000)
        * (OSC_PARAM 6 7 7 1023 (OSC_INIT false 0 0 0 {})).shiftShape = _
    rw [hs, hss, ha]
    norm_num [logue.s32ToFloat, logue.pow2f]
  have hv : (OSC_CYCLE logue.Platform.prologue demo.sampleApi squarePanel 0x3c00 64
      (OSC_PARAM 6 7 7 1023 (OSC_INIT false 0 0 0 {}))).2.mix
      = -(2147483647 / 2147483648) * (1023 / 1024) * (1 / 10) := by
    rw [OSC_CYCLE_mix, ht, hm]
    ring
  have hneg : (OSC_CYCLE logue.Platform.prologue demo.sampleApi squarePanel 0x3c00 64
      (OSC_PARAM 6 7 7 1023 (OSC_INIT false 0 0 0 {}))).2.mix < 0 := by
    rw [hv]
    norm_num
  refine ⟨hneg, ?_⟩
  intro hc
  have h0 := (clampMix_mem ((OSC_PARAM 6 7 7 1023 (OSC_INIT false 0 0 0 {})).mix
    + (mixTarget logue.Platform.prologue squarePanel
          (OSC_PARAM 6 7 7 1023 (OSC_INIT false 0 0 0 {}))
        - (OSC_PARAM 6 7 7 1023 (OSC_INIT false 0 0 0 {})).mix) * (1 / 10))).1
  rw [← hc] at h0
  exact absurd hneg (not_lt.mpr h0)

/-- C21 amended: after every `OSC_CYCLE` call the stored mix is the smoothed
value `mix + (target - mix) * 0.1`, not clamped, with
`target = shape + lfoAmplitude(shiftShape)`; the value clamped to `[0, 1]` is the
local copy from which the gains are computed. With shape and shift-shape in
`[0, 1023/1024]` the target is in `[-1, 2]`, and a stored mix in `[-1, 2]` (as
after `OSC_INIT`) stays in `[-1, 2]`; shape and shift-shape are not changed. -/
theorem C21_stored_mix_unclamped (platform : logue.Platform) (api : demo.OscApi)
    (panel : logue.Panel) (pitch frames : ℕ) (g : Globals)
    (hs : 0 ≤ g.shape ∧ g.shape ≤ 1023 / 1024)
    (hss : 0 ≤ g.shiftShape ∧ g.shiftShape ≤ 1023 / 1024)
    (hm : -1 ≤ g.mix ∧ g.mix ≤ 2) :
    (OSC_CYCLE platform api panel pitch frames g).2.mix
        = g.mix + (g.shape + lfoAmplitude platform panel g.shiftShape - g.mix) * (1 / 10)
    ∧ (0 ≤ clampMix g.mix ∧ clampMix g.mix ≤ 1)
    ∧ cycleGains g = ((1 - clampMix g.mix) * (9 / 10), clampMix g.mix * (9 / 10))
    ∧ (-1 ≤ (OSC_CYCLE platform api panel pitch frames g).2.mix
        ∧ (OSC_CYCLE platform api panel pitch frames g).2.mix ≤ 2)
    ∧ (OSC_CYCLE platform api panel pitch frames g).2.shape = g.shape
    ∧ (OSC_CYCLE platform api panel pitch frames g).2.shiftShape = g.shiftShape := by
  have ht := mixTarget_range platform panel g hs hss
  refine ⟨rfl, clampMix_mem g.mix, rfl, ?_, rfl, rfl⟩
  rw [OSC_CYCLE_mix]
  constructor <;> linarith [ht.1, ht.2, hm.1, hm.2]

/-- Witness of the amended C21 on the sample state and host (mix 0, target 1):
the stored mix becomes `1/10`. -/
theorem C21_stored_mix_unclamped_witness :
    (OSC_CYCLE logue.Platform.prologue demo.sampleApi samplePanel 0x3c00 64 sampleGlobals).2.mix
      = sampleGlobals.mix
        + (sampleGlobals.shape + lfoAmplitude logue.Platform.prologue samplePanel
            sampleGlobals.shiftShape - sampleGlobals.mix) * (1 / 10) :=
  (C21_stored_mix_unclamped logue.Platform.prologue demo.sampleApi samplePanel 0x3c00 64
    sampleGlobals
    (by norm_num [sampleGlobals, OSC_PARAM, OSC_INIT, logue.u32ToFloat, logue.pow2f])
    (by norm_num [sampleGlobals, OSC_PARAM, OSC_INIT, logue.u32ToFloat, logue.pow2f])
    (by norm_num [sampleGlobals, OSC_PARAM, OSC_INIT])).1

/-- C22 as stated fails: on the sample state and host (stored mix 0, target 1)
the mix smoothed in the block is `1/10`, which would give the gains
`(81/100, 9/100)`; `OSC_CYCLE` weights the block with `(9/10, 0)`, the gains of
the mix stored by the previous block. -/
theorem C22_counterexample :
    cycleGains sampleGlobals = (9 / 10, 0)
    ∧ specCycleGains logue.Platform.prologue samplePanel sampleGlobals = (81 / 100, 9 / 100)
    ∧ cycleGains sampleGlobals ≠ specCycleGains logue.Platform.prologue samplePanel sampleGlobals
    ∧ OSC_CYCLE_output logue.Platform.prologue demo.sampleApi samplePanel 0x3c00 64 sampleGlobals
        = mixLoop (9 / 10) 0
            (demo.render demo.sampleApi 64
              (demo.setModulation
                (logue.u32ToFloat 13 (logue.Panel.vcoShape logue.Platform.prologue samplePanel 0))
                (demo.setWaveform (logue.Panel.vcoWaveform logue.Platform.prologue samplePanel 0)
                  (demo.setPitch demo.sampleApi
                    ((0x3c00 : ℤ) + sampleGlobals.detune
                      + logue.Panel.vcoPitch logue.Platform.prologue samplePanel 0)
                    sampleGlobals.osc0)))).1
            (demo.render demo.sampleApi 64
              (demo.setModulation
                (logue.u32ToFloat 13 (logue.Panel.vcoShape logue.Platform.prologue samplePanel 1))
                (demo.setWaveform (logue.Panel.vcoWaveform logue.Platform.prologue samplePanel 1)
                  (demo.setPitch demo.sampleApi
                    ((0x3c00 : ℤ) - sampleGlobals.detune
                      + logue.Panel.vcoPitch logue.Platform.prologue samplePanel 1)
                    sampleGlobals.osc1)))).1 := by
  have hm : sampleGlobals.mix = 0 := rfl
  have hc0 : clampMix (0 : ℚ) = 0 := by norm_num [clampMix]
  have h1 : cycleGains sampleGlobals = (9 / 10, 0) := by
    unfold cycleGains
    rw [hm, hc0]
    norm_num
  have ht : mixTarget logue.Platform.prologue samplePanel sampleGlobals = 1 := sample_mix_target
  have h2 : specCycleGains logue.Platform.prologue samplePanel sampleGlobals
      = (81 / 100, 9 / 100) := by
    unfold specCycleGains
    simp only [ht, hm]
    have hc : clampMix ((0 : ℚ) + (1 - 0) * (1 / 10)) = 1 / 10 := by norm_num [clampMix]
    rw [hc]
    norm_num
  refine ⟨h1, h2, ?_, ?_⟩
  · rw [h1, h2]
    intro h
    have h3 := congrArg Prod.snd h
    norm_num at h3
  · have hg : OSC_CYCLE_output logue.Platform.prologue demo.sampleApi samplePanel 0x3c00 64
        sampleGlobals
        = mixLoop (cycleGains sampleGlobals).1 (cycleGains sampleGlobals).2
            (demo.render demo.sampleApi 64
              (demo.setModulation
                (logue.u32ToFloat 13 (logue.Panel.vcoShape logue.Platform.prologue samplePanel 0))
                (demo.setWaveform (logue.Panel.vcoWaveform logue.Platform.prologue samplePanel 0)
                  (demo.setPitch demo.sampleApi
                    ((0x3c00 : ℤ) + sampleGlobals.detune
                      + logue.Panel.vcoPitch logue.Platform.prologue samplePanel 0)
                    sampleGlobals.osc0)))).1
            (demo.render demo.sampleApi 64
              (demo.setModulation
                (logue.u32ToFloat 13 (logue.Panel.vcoShape logue.Platform.prologue samplePanel 1))
                (demo.setWaveform (logue.Panel.vcoWaveform logue.Platform.prologue samplePanel 1)
                  (demo.setPitch demo.sampleApi
                    ((0x3c00 : ℤ) - sampleGlobals.detune
                      + logue.Panel.vcoPitch logue.Platform.prologue samplePanel 1)
                    sampleGlobals.osc1)))).1 := by
      unfold OSC_CYCLE_output
      rw [if_pos (by norm_num)]
      rfl
    rw [hg, h1]

/-- C22 amended: in each `OSC_CYCLE` call (at most 64 frames) the samples are
the mix of the two renders with the gains `(1 - m) * 0.9` and `m * 0.9`, where
`m` is the mix stored on entry (the value smoothed in the previous block)
clamped to `[0, 1]`; the value smoothed in this block is only stored. The
output of a block therefore does not depend on the shape and shift-shape that
make its target, and the gains of the next block are those of the value stored
now. -/
theorem C22_gains_use_stored_mix (platform : logue.Platform) (api : demo.OscApi)
    (panel : logue.Panel) (pitch frames : ℕ) (g : Globals) (shape shiftShape : ℚ) :
    OSC_CYCLE_output platform api panel pitch frames g
      = (if frames ≤ 64 then
          mixLoop ((1 - clampMix g.mix) * (9 / 10)) (clampMix g.mix * (9 / 10))
            (demo.render api frames
              (demo.setModulation (logue.u32ToFloat 13 (logue.Panel.vcoShape platform panel 0))
                (demo.setWaveform (logue.Panel.vcoWaveform platform panel 0)
                  (demo.setPitch api
                    ((pitch : ℤ) + g.detune + logue.Panel.vcoPitch platform panel 0) g.osc0)))).1
            (demo.render api frames
              (demo.setModulation (logue.u32ToFloat 13 (logue.Panel.vcoShape platform panel 1))
                (demo.setWaveform (logue.Panel.vcoWaveform platform panel 1)
                  (demo.setPitch api
                    ((pitch : ℤ) - g.detune + logue.Panel.vcoPitch platform panel 1) g.osc1)))).1
         else none)
    ∧ OSC_CYCLE_output platform api panel pitch frames
        { g with shape := shape, shiftShape := shiftShape }
      = OSC_CYCLE_output platform api panel pitch frames g
    ∧ cycleGains (OSC_CYCLE platform api panel pitch frames g).2
      = ((1 - clampMix (g.mix + (mixTarget platform panel g - g.mix) * (1 / 10))) * (9 / 10),
         clampMix (g.mix + (mixTarget platform panel g - g.mix) * (1 / 10)) * (9 / 10)) :=
  ⟨rfl, rfl, rfl⟩

/-- C23 fails on the code of the build without `ARM_MATH_CM4`: there
`OSC_CYCLE` converts with `floatToS32<31>`, which is `int32_t(s * 2^31)` and is
undefined outside the output range, not with the saturating conversion. On that
build (dummy panel, square wave) with a square wave that overshoots to `10/9`
and the stored mix at 0 the summed sample is `0.9 * 10/9 = 1.0`: the saturating
conversion gives `INT32_MAX`, as the claim says of the output, while the
conversion called is undefined and so is the output of the block. -/
theorem C23_portable_output_undefined :
    logue.floatToS32_saturating 31 1 = some 2147483647
    ∧ logue.floatToS32 31 1 = none
    ∧ (9 / 10 : ℚ) * (10 / 9) + 0 * (10 / 9) = 1
    ∧ OSC_CYCLE_output logue.Platform.other loudApi samplePanel 0x3c00 1 {} = none
    ∧ specMixLoop (cycleGains {}).1 (cycleGains {}).2 [10 / 9] [10 / 9] = some [2147483647] := by
  have hsat : logue.floatToS32_saturating 31 1 = some 2147483647 := by
    norm_num [logue.floatToS32_saturating, logue.pow2f, logue.INT32_MAX]
  have hnone : logue.floatToS32 31 1 = none := logue.floatToS32_31_none 1 (le_refl 1)
  have hg : cycleGains {} = (9 / 10, 0) := by
    norm_num [cycleGains, clampMix]
  have hsum : (9 / 10 : ℚ) * (10 / 9) + 0 * (10 / 9) = 1 := by norm_num
  refine ⟨hsat, hnone, hsum, ?_, ?_⟩
  · have ho : OSC_CYCLE_output logue.Platform.other loudApi samplePanel 0x3c00 1 {}
        = mixLoop (cycleGains {}).1 (cycleGains {}).2 [10 / 9] [10 / 9] := by
      unfold OSC_CYCLE_output
      rw [if_pos (by norm_num)]
      rfl
    rw [ho, hg]
    simp only [mixLoop, hsum, hnone]
  · rw [hg]
    simp only [specMixLoop, hsum, hsat]

namespace demo

end demo

namespace demo

theorem advancePhase_eq_fract (phase phaseDelta : ℚ) (h0 : 0 ≤ phase) (h1 : phase < 1)
    (d0 : 0 ≤ phaseDelta) (d1 : phaseDelta < 1) :
    advancePhase phase phaseDelta = Int.fract (phase + phaseDelta) := by
  unfold advancePhase
  split_ifs with h
  · symm
    rw [Int.fract_eq_iff]
    refine ⟨by linarith, by linarith, 1, by push_cast; ring⟩
  · push_neg at h
    exact (Int.fract_eq_self.mpr ⟨by linarith, h⟩).symm

theorem renderLoop_phase_eq (api : OscApi) (waveFunction : ℚ → ℚ → ℚ)
    (bandLimit mod phaseDelta : ℚ) (d0 : 0 ≤ phaseDelta) (d1 : phaseDelta < 1) (frames : ℕ) :
    ∀ phase : ℚ, 0 ≤ phase → phase < 1 →
      (renderLoop api waveFunction bandLimit mod phaseDelta frames phase).2
        = Int.fract (phase + frames * phaseDelta) := by
  induction frames with
  | zero =>
    intro phase h0 h1
    show phase = Int.fract (phase + ((0 : ℕ) : ℚ) * phaseDelta)
    rw [Nat.cast_zero, zero_mul, add_zero]
    exact (Int.fract_eq_self.mpr ⟨h0, h1⟩).symm
  | succ k ih =>
    intro phase h0 h1
    have ha := advancePhase_eq_fract phase phaseDelta h0 h1 d0 d1
    show (renderLoop api waveFunction bandLimit mod phaseDelta k
        (advancePhase phase phaseDelta)).2 = _
    rw [ih _ (by rw [ha]; exact Int.fract_nonneg _) (by rw [ha]; exact Int.fract_lt_one _), ha]
    have e : Int.fract (phase + phaseDelta) + (k : ℚ) * phaseDelta
        = (phase + ((k + 1 : ℕ) : ℚ) * phaseDelta) - ((⌊phase + phaseDelta⌋ : ℤ) : ℚ) := by
      unfold Int.fract
      push_cast
      ring
    rw [e, Int.fract_sub_int]

end demo

/-- C25: for a stored phase in `[0, 1)` and a phase increment in `[0, 1)`,
`render(yn, n)` leaves the fractional part of `phase + n * phaseDelta` as the
stored phase, whatever the waveform index and the modulation; note, phase
increment, modulation, waveform index and noise state are unchanged, and
`render` with `n = 0` writes nothing and changes nothing. -/
theorem C25_phase_closed_form (api : demo.OscApi) (s : demo.Oscillator) (n : ℕ)
    (h0 : 0 ≤ s.m_phase) (h1 : s.m_phase < 1)
    (d0 : 0 ≤ s.m_phaseDelta) (d1 : s.m_phaseDelta < 1) :
    (demo.render api n s).2.m_phase = Int.fract (s.m_phase + n * s.m_phaseDelta)
    ∧ (demo.render api n s).2.m_note = s.m_note
    ∧ (demo.render api n s).2.m_phaseDelta = s.m_phaseDelta
    ∧ (demo.render api n s).2.m_modulation = s.m_modulation
    ∧ (demo.render api n s).2.m_waveformIndex = s.m_waveformIndex
    ∧ (demo.render api n s).2.m_noiseState = s.m_noiseState
    ∧ demo.render api 0 s = ([], s) :=
  ⟨demo.renderLoop_phase_eq api _ _ _ _ d0 d1 n _ h0 h1, rfl, rfl, rfl, rfl, rfl, rfl⟩

/-- Witness of C25: phase `1/2`, increment `3/8`, three frames; the stored phase
is the fractional part of `13/8`. -/
theorem C25_phase_closed_form_witness :
    (demo.render demo.sampleApi 3 { m_phase := 1 / 2, m_phaseDelta := 3 / 8 }).2.m_phase
      = Int.fract ((1 / 2 : ℚ) + (3 : ℕ) * (3 / 8)) :=
  (C25_phase_closed_form demo.sampleApi { m_phase := 1 / 2, m_phaseDelta := 3 / 8 } 3
    (by norm_num) (by norm_num) (by norm_num) (by norm_num)).1

/-! ## Monotonicity of the saturating conversion -/

namespace logue

theorem truncate_mono (x y : ℚ) (h : x ≤ y) : truncate x ≤ truncate y := by
  unfold truncate
  split_ifs with hx hy hy
  · exact Int.floor_mono h
  · exact absurd (le_trans hx h) hy
  · push_neg at hx
    have h1 : ⌈x⌉ ≤ 0 := Int.ceil_le.mpr (by exact_mod_cast hx.le)
    have h2 : 0 ≤ ⌊y⌋ := Int.floor_nonneg.mpr hy
    exact le_trans h1 h2
  · exact Int.ceil_mono h

theorem floatToS32_saturating_cases (fbits : ℕ) (h : fbits ≤ 31) (n : ℚ) :
    ((2 : ℚ) ^ (31 - fbits) ≤ n ∧ floatToS32_saturating fbits n = some 2147483647)
    ∨ (n ≤ -(2 : ℚ) ^ (31 - fbits) ∧ floatToS32_saturating fbits n = some (-2147483648))
    ∨ (-(2 : ℚ) ^ (31 - fbits) < n ∧ n < (2 : ℚ) ^ (31 - fbits)
        ∧ floatToS32_saturating fbits n = some (truncate (n * (2 : ℚ) ^ fbits))
        ∧ -2147483648 < truncate (n * (2 : ℚ) ^ fbits)
        ∧ truncate (n * (2 : ℚ) ^ fbits) < 2147483648) := by
  have hpos : (0 : ℚ) < (2 : ℚ) ^ (31 - fbits) := by positivity
  by_cases h1 : (2 : ℚ) ^ (31 - fbits) ≤ n
  · left
    refine ⟨h1, ?_⟩
    unfold floatToS32_saturating INT32_MAX
    rw [if_pos h, pow2f_eq, if_pos h1]
  · by_cases h2 : n ≤ -(2 : ℚ) ^ (31 - fbits)
    · right
      left
      refine ⟨h2, ?_⟩
      unfold floatToS32_saturating INT32_MIN
      rw [if_pos h, pow2f_eq, if_neg h1, if_pos h2]
    · right
      right
      push_neg at h1 h2
      have hs := scaled_abs_lt fbits h n (by rw [pow2f_eq]; exact h2) (by rw [pow2f_eq]; exact h1)
      rw [pow2f_eq] at hs
      have hf := floatToS32_of_abs_lt fbits h n (by norm_num; exact hs)
      have ht := lt_of_le_of_lt (truncate_abs_le (n * (2 : ℚ) ^ fbits)) hs
      rw [abs_lt] at ht
      refine ⟨h2, h1, ?_, by exact_mod_cast ht.1, by exact_mod_cast ht.2⟩
      unfold floatToS32_saturating
      rw [if_pos h, pow2f_eq, if_neg (not_le.mpr h1), if_neg (not_le.mpr h2), hf]

end logue

/-- C26: for `fbits ≤ 31`, `floatToS32_saturating<fbits>` is defined everywhere
and non-decreasing: `n1 ≤ n2` gives results `a ≤ b`, both in the `int32`
range, also across the two saturation boundaries; in the non-saturated branch
the truncated product `n * 2^fbits` always fits in `int32`. -/
theorem C26_saturating_monotone (fbits : ℕ) (h : fbits ≤ 31) (n1 n2 : ℚ) (hn : n1 ≤ n2) :
    (∃ a b : ℤ, logue.floatToS32_saturating fbits n1 = some a
        ∧ logue.floatToS32_saturating fbits n2 = some b
        ∧ a ≤ b ∧ -2147483648 ≤ a ∧ b ≤ 2147483647)
    ∧ (-(2 : ℚ) ^ (31 - fbits) < n1 → n1 < (2 : ℚ) ^ (31 - fbits) →
        logue.floatToS32_saturating fbits n1 = some (logue.truncate (n1 * (2 : ℚ) ^ fbits))
        ∧ -2147483648 ≤ logue.truncate (n1 * (2 : ℚ) ^ fbits)
        ∧ logue.truncate (n1 * (2 : ℚ) ^ fbits) ≤ 2147483647) := by
  have hpos : (0 : ℚ) < (2 : ℚ) ^ (31 - fbits) := by positivity
  have hp2 : (0 : ℚ) < (2 : ℚ) ^ fbits := by positivity
  constructor
  · rcases logue.floatToS32_saturating_cases fbits h n1 with ⟨c1, e1⟩ | ⟨c1, e1⟩ |
      ⟨c1, c1', e1, l1, u1⟩ <;>
    rcases logue.floatToS32_saturating_cases fbits h n2 with ⟨c2, e2⟩ | ⟨c2, e2⟩ |
      ⟨c2, c2', e2, l2, u2⟩
    · exact ⟨_, _, e1, e2, le_refl _, by norm_num, le_refl _⟩
    · exact absurd (le_trans c1 (le_trans hn c2)) (by linarith)
    · exact absurd (lt_of_le_of_lt (le_trans c1 hn) c2') (lt_irrefl _)
    · exact ⟨_, _, e1, e2, by norm_num, le_refl _, le_refl _⟩
    · exact ⟨_, _, e1, e2, le_refl _, le_refl _, by norm_num⟩
    · exact ⟨_, _, e1, e2, by omega, le_refl _, by omega⟩
    · exact ⟨_, _, e1, e2, by omega, by omega, le_refl _⟩
    · exact absurd (lt_of_lt_of_le c1 (le_trans hn c2)) (lt_irrefl _)
    · exact ⟨_, _, e1, e2,
        logue.truncate_mono _ _ (mul_le_mul_of_nonneg_right hn hp2.le), by omega, by omega⟩
  · intro hlo hhi
    rcases logue.floatToS32_saturating_cases fbits h n1 with ⟨c1, _⟩ | ⟨c1, _⟩ |
      ⟨_, _, e1, l1, u1⟩
    · exact absurd (lt_of_le_of_lt c1 hhi) (lt_irrefl _)
    · exact absurd (lt_of_lt_of_le hlo c1) (lt_irrefl _)
    · exact ⟨e1, by omega, by omega⟩

/-- Witness of C26 across the upper boundary of `fbits = 31`: `1/2 ≤ 3`. -/
theorem C26_saturating_monotone_witness :
    ∃ a b : ℤ, logue.floatToS32_saturating 31 (1 / 2) = some a
      ∧ logue.floatToS32_saturating 31 3 = some b
      ∧ a ≤ b ∧ -2147483648 ≤ a ∧ b ≤ 2147483647 :=
  (C26_saturating_monotone 31 (le_refl 31) (1 / 2) 3 (by norm_num)).1

/-! ## The checksum step is a bijection -/

theorem xorShiftLeft_injective (k : ℕ) (hk : 0 < k) (x y : ℕ)
    (h : x ^^^ ((x <<< k) % 2 ^ 32) = y ^^^ ((y <<< k) % 2 ^ 32)) : x = y := by
  apply Nat.eq_of_testBit_eq
  intro i
  induction i using Nat.strong_induction_on with
  | _ i ih =>
    have hb := congrArg (fun z => Nat.testBit z i) h
    simp only [Nat.testBit_xor, Nat.testBit_mod_two_pow, Nat.testBit_shiftLeft] at hb
    by_cases hik : k ≤ i
    · have hprev := ih (i - k) (by omega)
      rw [hprev] at hb
      cases hx : x.testBit i <;> cases hy : y.testBit i <;> cases hc : y.testBit (i - k) <;>
        cases hd : decide (i < 32) <;> simp_all
    · have hd : decide (i ≥ k) = false := by simp [hik]
      rw [hd] at hb
      simpa using hb

theorem xorShiftRight_injective (k : ℕ) (hk : 0 < k) (x y : ℕ) (hx : x < 2 ^ 32)
    (hy : y < 2 ^ 32) (h : x ^^^ (x >>> k) = y ^^^ (y >>> k)) : x = y := by
  have key : ∀ n i : ℕ, 32 ≤ i + n → x.testBit i = y.testBit i := by
    intro n
    induction n with
    | zero =>
      intro i hi
      have hpow : (2 : ℕ) ^ 32 ≤ 2 ^ i := Nat.pow_le_pow_right (by norm_num) (by omega)
      rw [Nat.testBit_lt_two_pow (lt_of_lt_of_le hx hpow),
        Nat.testBit_lt_two_pow (lt_of_lt_of_le hy hpow)]
    | succ n ih =>
      intro i hi
      have hnext := ih (k + i) (by omega)
      have hb := congrArg (fun z => Nat.testBit z i) h
      simp only [Nat.testBit_xor, Nat.testBit_shiftRight] at hb
      rw [hnext] at hb
      cases hbx : x.testBit i <;> cases hby : y.testBit i <;> cases hc : y.testBit (k + i) <;>
        simp_all
  apply Nat.eq_of_testBit_eq
  intro i
  exact key 32 i (by omega)

theorem xorShiftLeft_lt (k x : ℕ) (hx : x < 2 ^ 32) : x ^^^ ((x <<< k) % 2 ^ 32) < 2 ^ 32 :=
  Nat.xor_lt_two_pow hx (Nat.mod_lt _ (by norm_num))

theorem xorShiftRight_lt (k x : ℕ) (hx : x < 2 ^ 32) : x ^^^ (x >>> k) < 2 ^ 32 := by
  apply Nat.xor_lt_two_pow hx
  rw [Nat.shiftRight_eq_div_pow]
  exact lt_of_le_of_lt (Nat.div_le_self _ _) hx

theorem specMix_lt (h : ℕ) (hh : h < 2 ^ 32) : specMix h < 2 ^ 32 := by
  unfold specMix
  exact xorShiftLeft_lt 5 _ (xorShiftRight_lt 17 _ (xorShiftLeft_lt 13 _ hh))

theorem specMix_injective (x y : ℕ) (hx : x < 2 ^ 32) (hy : y < 2 ^ 32)
    (h : specMix x = specMix y) : x = y := by
  unfold specMix at h
  have h1 := xorShiftLeft_injective 5 (by norm_num) _ _ h
  have h2 := xorShiftRight_injective 17 (by norm_num) _ _ (xorShiftLeft_lt 13 _ hx)
    (xorShiftLeft_lt 13 _ hy) h1
  exact xorShiftLeft_injective 13 (by norm_num) _ _ h2

theorem bijOn_word_of_injOn (f : ℕ → ℕ)
    (hm : Set.MapsTo f {x | x < 2 ^ 32} {x | x < 2 ^ 32})
    (hi : Set.InjOn f {x | x < 2 ^ 32}) : Set.BijOn f {x | x < 2 ^ 32} {x | x < 2 ^ 32} := by
  have hfin : ({x | x < 2 ^ 32} : Set ℕ).Finite := Set.finite_lt_nat (2 ^ 32)
  have himg : f '' {x | x < 2 ^ 32} = {x | x < 2 ^ 32} := by
    apply Set.eq_of_subset_of_ncard_le hm.image_subset _ hfin
    rw [Set.ncard_image_of_injOn hi]
  have hb := hi.bijOn_image
  rw [himg] at hb
  exact hb

theorem checksumStep_injective_hash (p x y : ℕ) (hp : p < 2 ^ 32) (hx : x < 2 ^ 32)
    (hy : y < 2 ^ 32) (h : specMix (x ^^^ p) = specMix (y ^^^ p)) : x = y :=
  Nat.xor_left_injective
    (specMix_injective _ _ (Nat.xor_lt_two_pow hx hp) (Nat.xor_lt_two_pow hy hp) h)

theorem checksumStep_injective_sum (h x y : ℕ) (hh : h < 2 ^ 32) (hx : x < 2 ^ 32)
    (hy : y < 2 ^ 32) (he : specMix (h ^^^ x) = specMix (h ^^^ y)) : x = y :=
  Nat.xor_right_injective
    (specMix_injective _ _ (Nat.xor_lt_two_pow hh hx) (Nat.xor_lt_two_pow hh hy) he)

theorem specBlockSum_lt (flash : ℕ → ℕ) (b : ℕ) : specBlockSum flash b < 2 ^ 32 :=
  Nat.mod_lt _ (by norm_num)

theorem checksumFold_diverged (flash1 flash2 : ℕ → ℕ) (blocks : List ℕ) :
    ∀ h1 h2 : ℕ, h1 < 2 ^ 32 → h2 < 2 ^ 32 → h1 ≠ h2 →
      (∀ b ∈ blocks, specBlockSum flash1 b = specBlockSum flash2 b) →
      blocks.foldl (fun hash b => specMix (hash ^^^ specBlockSum flash1 b)) h1
        ≠ blocks.foldl (fun hash b => specMix (hash ^^^ specBlockSum flash2 b)) h2 := by
  induction blocks with
  | nil =>
    intro h1 h2 _ _ hne _
    exact hne
  | cons b rest ih =>
    intro h1 h2 hl1 hl2 hne hsame
    rw [List.foldl_cons, List.foldl_cons]
    have hb := hsame b (List.mem_cons_self b rest)
    apply ih
    · exact specMix_lt _ (Nat.xor_lt_two_pow hl1 (specBlockSum_lt flash1 b))
    · exact specMix_lt _ (Nat.xor_lt_two_pow hl2 (specBlockSum_lt flash2 b))
    · rw [hb]
      intro hc
      exact hne (checksumStep_injective_hash _ _ _ (specBlockSum_lt flash2 b) hl1 hl2 hc)
    · exact fun c hc => hsame c (List.mem_cons_of_mem b hc)

theorem checksumFold_detects (flash1 flash2 : ℕ → ℕ) (j : ℕ)
    (hj : specBlockSum flash1 j ≠ specBlockSum flash2 j) (blocks : List ℕ) :
    ∀ h : ℕ, h < 2 ^ 32 → blocks.Nodup → j ∈ blocks →
      (∀ b ∈ blocks, b ≠ j → specBlockSum flash1 b = specBlockSum flash2 b) →
      blocks.foldl (fun hash b => specMix (hash ^^^ specBlockSum flash1 b)) h
        ≠ blocks.foldl (fun hash b => specMix (hash ^^^ specBlockSum flash2 b)) h := by
  induction blocks with
  | nil =>
    intro h _ _ hmem _
    exact absurd hmem (List.not_mem_nil j)
  | cons b rest ih =>
    intro h hl hnd hmem hsame
    rw [List.foldl_cons, List.foldl_cons]
    have hnd2 := List.nodup_cons.mp hnd
    by_cases hbj : b = j
    · subst hbj
      apply checksumFold_diverged
      · exact specMix_lt _ (Nat.xor_lt_two_pow hl (specBlockSum_lt flash1 b))
      · exact specMix_lt _ (Nat.xor_lt_two_pow hl (specBlockSum_lt flash2 b))
      · intro hc
        exact hj (checksumStep_injective_sum _ _ _ hl (specBlockSum_lt flash1 b)
          (specBlockSum_lt flash2 b) hc)
      · intro c hc
        exact hsame c (List.mem_cons_of_mem b hc) (fun hcb => hnd2.1 (hcb ▸ hc))
    · have hb := hsame b (List.mem_cons_self b rest) hbj
      rw [hb]
      apply ih _ (specMix_lt _ (Nat.xor_lt_two_pow hl (specBlockSum_lt flash2 b))) hnd2.2
      · rcases List.mem_cons.mp hmem with hm | hm
        · exact absurd hm.symm hbj
        · exact hm
      · exact fun c hc hcj => hsame c (List.mem_cons_of_mem b hc) hcj

/-- C27: the per-block update `h ↦ mix(h XOR partial)` is a bijection of the
32-bit words in `h` for a fixed 32-bit `partial`, and in `partial` for a fixed
32-bit `h`. Hence two flash images whose block sums (mod `2^32`) differ in
exactly one of the 384 blocks have different reference checksums, and the
checksum loop of `Panel::init` returns different hashes for them. -/
theorem C27_checksum_detects_single_block_change :
    (∀ p : ℕ, p < 2 ^ 32 →
        Set.BijOn (fun h => specMix (h ^^^ p)) {x | x < 2 ^ 32} {x | x < 2 ^ 32})
    ∧ (∀ h : ℕ, h < 2 ^ 32 →
        Set.BijOn (fun p => specMix (h ^^^ p)) {x | x < 2 ^ 32} {x | x < 2 ^ 32})
    ∧ (∀ (flash1 flash2 : ℕ → ℕ) (j : ℕ), j < 384 →
        specBlockSum flash1 j ≠ specBlockSum flash2 j →
        (∀ b : ℕ, b < 384 → b ≠ j → specBlockSum flash1 b = specBlockSum flash2 b) →
        specChecksum flash1 ≠ specChecksum flash2
        ∧ ∀ k : ℕ, logue.flashChecksum flash1 (384 + k) ≠ logue.flashChecksum flash2 (384 + k)) := by
  refine ⟨?_, ?_, ?_⟩
  · intro p hp
    apply bijOn_word_of_injOn
    · intro x hx
      exact specMix_lt _ (Nat.xor_lt_two_pow hx hp)
    · intro x hx y hy hxy
      exact checksumStep_injective_hash p x y hp hx hy hxy
  · intro h hh
    apply bijOn_word_of_injOn
    · intro x hx
      exact specMix_lt _ (Nat.xor_lt_two_pow hh hx)
    · intro x hx y hy hxy
      exact checksumStep_injective_sum h x y hh hx hy hxy
  · intro flash1 flash2 j hj384 hj hsame
    have hne : specChecksum flash1 ≠ specChecksum flash2 := by
      unfold specChecksum
      apply checksumFold_detects flash1 flash2 j hj (List.range 384) 0x1200 (by norm_num)
        (List.nodup_range 384) (List.mem_range.mpr hj384)
      intro b hb hbj
      exact hsame b (List.mem_range.mp hb) hbj
    refine ⟨hne, ?_⟩
    intro k
    rw [logue.flashChecksum_eq, logue.flashChecksum_eq]
    intro hc
    exact hne (Option.some.inj hc)

theorem sampleFlash_other_blocks (b : ℕ) (hb : b ≠ 383) :
    specBlockSum (fun _ => 0) b = specBlockSum logue.sampleFlash b := by
  rw [logue.specBlockSum_eq, logue.specBlockSum_eq]
  unfold logue.sampleFlash
  have hz : ∀ c : ℕ, c < 32 →
      (if 0x08000000 + 32 * b + c = 0x08002fe0 then (0x2dc850e0 : ℕ) else 0) = 0 :=
    fun c hc => if_neg (by omega)
  have h0 := hz 0 (by norm_num)
  rw [Nat.add_zero] at h0
  rw [h0, hz 4 (by norm_num), hz 8 (by norm_num), hz 12 (by norm_num), hz 16 (by norm_num),
    hz 20 (by norm_num), hz 24 (by norm_num), hz 28 (by norm_num)]

/-- Witness of C27: the all-zero flash image against the sample image, which
differs from it in the last block only. -/
theorem C27_checksum_detects_single_block_change_witness :
    (383 : ℕ) < 384
    ∧ specBlockSum (fun _ => 0) 383 ≠ specBlockSum logue.sampleFlash 383
    ∧ specChecksum (fun _ => 0) ≠ specChecksum logue.sampleFlash :=
  ⟨by norm_num, by decide,
    (C27_checksum_detects_single_block_change.2.2 (fun _ => 0) logue.sampleFlash 383
      (by norm_num) (by decide) (fun b _ hb => sampleFlash_other_blocks b hb)).1⟩

/-! ## The LFO amplitude -/

theorem xor_all_ones (x : ℕ) (hx : x < 2 ^ 32) : x ^^^ 0xffffffff = 0xffffffff - x := by
  have e1 : (0xffffffff : ℕ) = 2 ^ 32 - 1 := by norm_num
  have e2 : (0xffffffff : ℕ) - x = 2 ^ 32 - (x + 1) := by omega
  rw [e2, e1]
  apply Nat.eq_of_testBit_eq
  intro i
  rw [Nat.testBit_xor, Nat.testBit_two_pow_sub_one, Nat.testBit_two_pow_sub_succ hx]
  by_cases hi : i < 32
  · simp [hi]
  · have hpow : (2 : ℕ) ^ 32 ≤ 2 ^ i := Nat.pow_le_pow_right (by norm_num) (by omega)
    rw [Nat.testBit_lt_two_pow (lt_of_lt_of_le hx hpow)]
    simp [hi]

theorem foldedPhase_eq (phase : ℕ) (hp : phase < 2 ^ 32) :
    phase ^^^ signMask phase = min phase (0xffffffff - phase) := by
  unfold signMask
  split_ifs with h
  · rw [Nat.xor_zero]
    exact (min_eq_left (by omega)).symm
  · rw [xor_all_ones phase hp]
    exact (min_eq_right (by omega)).symm

theorem toInt32_eq (n : ℕ) (hn : n < 4294967296) :
    toInt32 n = if n < 2147483648 then (n : ℤ) else (n : ℤ) - 4294967296 := by
  unfold toInt32
  have h : n % 2 ^ 32 = n := Nat.mod_eq_of_lt (by norm_num; exact hn)
  rw [h]
  norm_num

theorem triangle_arith (a : ℕ) (ha : a ≤ 2147483647) :
    toInt32 ((((a + 4294967296 - 1073741824) % 4294967296) * 2) % 4294967296)
      = 2 * (a : ℤ) - 2147483648 := by
  rw [toInt32_eq _ (Nat.mod_lt _ (by norm_num))]
  split_ifs with h <;> omega

theorem triangle_eq (phase : ℕ) (hp : phase < 2 ^ 32) :
    lfoIntAmplitude 1 phase = 2 * ((min phase (0xffffffff - phase) : ℕ) : ℤ) - 2 ^ 31 := by
  have hm : min phase (0xffffffff - phase) ≤ 2147483647 := by
    rcases le_total phase (0xffffffff - phase) with h | h
    · rw [min_eq_left h]
      omega
    · rw [min_eq_right h]
      omega
  have ht := triangle_arith _ hm
  have hl : lfoIntAmplitude 1 phase
      = toInt32 (((((phase ^^^ signMask phase) + 2 ^ 32 - 0x40000000) % 2 ^ 32) <<< 1)
          % 2 ^ 32) := by
    unfold lfoIntAmplitude
    rw [if_neg (by norm_num), if_pos rfl]
  rw [hl, foldedPhase_eq phase hp, Nat.shiftLeft_eq]
  norm_num at ht ⊢
  exact ht

/-- C28: for the triangle code 1 and every 32-bit phase the integer amplitude is
`2 * min(phase, 0xffffffff - phase) - 2^31`: the folded phase
`min(phase, 0xffffffff - phase)` is below `2^31`, the amplitude is symmetric
under `phase ↦ 0xffffffff - phase`, is `-2^31` at phase 0, peaks at `2^31 - 2`
at phases `0x7fffffff` and `0x80000000`, and stays in the `int32` range. For
every waveform code the integer amplitude is in the `int32` range, so the
float returned by `lfoAmplitude(gain)` has magnitude at most `|gain|`. -/
theorem C28_triangle_amplitude (phase : ℕ) (hp : phase < 2 ^ 32) (waveform : ℕ)
    (platform : logue.Platform) (panel : logue.Panel) (gain : ℚ) :
    lfoIntAmplitude 1 phase = 2 * ((min phase (0xffffffff - phase) : ℕ) : ℤ) - 2 ^ 31
    ∧ phase ^^^ signMask phase = min phase (0xffffffff - phase)
    ∧ min phase (0xffffffff - phase) < 2 ^ 31
    ∧ lfoIntAmplitude 1 phase = lfoIntAmplitude 1 (0xffffffff - phase)
    ∧ lfoIntAmplitude 1 0 = -2 ^ 31
    ∧ lfoIntAmplitude 1 0x7fffffff = 2 ^ 31 - 2
    ∧ lfoIntAmplitude 1 0x80000000 = 2 ^ 31 - 2
    ∧ (-2 ^ 31 ≤ lfoIntAmplitude 1 phase ∧ lfoIntAmplitude 1 phase ≤ 2 ^ 31 - 2)
    ∧ (-2 ^ 31 ≤ lfoIntAmplitude waveform phase ∧ lfoIntAmplitude waveform phase ≤ 2 ^ 31 - 1)
    ∧ |lfoAmplitude platform panel gain| ≤ |gain| := by
  have ht := triangle_eq phase hp
  have hm : min phase (0xffffffff - phase) < 2 ^ 31 := by
    rcases le_total phase (0xffffffff - phase) with h | h
    · rw [min_eq_left h]
      omega
    · rw [min_eq_right h]
      omega
  have hsym : lfoIntAmplitude 1 phase = lfoIntAmplitude 1 (0xffffffff - phase) := by
    rw [ht, triangle_eq (0xffffffff - phase) (by omega)]
    have e : 0xffffffff - (0xffffffff - phase) = phase := by omega
    rw [e, min_comm]
  have hr := lfoIntAmplitude_range waveform phase
  have hmz : ((min phase (0xffffffff - phase) : ℕ) : ℤ) < 2147483648 := by
    exact_mod_cast hm
  have hmn : (0 : ℤ) ≤ ((min phase (0xffffffff - phase) : ℕ) : ℤ) := Int.natCast_nonneg _
  refine ⟨ht, foldedPhase_eq phase hp, hm, hsym, by decide, by decide, by decide, ?_, ?_,
    lfoAmplitude_abs_le platform panel gain⟩
  · rw [ht]
    constructor
    · linarith
    · have e : (2 : ℤ) ^ 31 = 2147483648 := by norm_num
      rw [e]
      linarith
  · have e : (2 : ℤ) ^ 31 = 2147483648 := by norm_num
    rw [e]
    exact ⟨hr.1, by linarith [hr.2]⟩

/-- Witness of C28 at phase `0x40000000` (a quarter cycle): amplitude 0. -/
theorem C28_triangle_amplitude_witness :
    (0x40000000 : ℕ) < 2 ^ 32
    ∧ lfoIntAmplitude 1 0x40000000
        = 2 * ((min 0x40000000 (0xffffffff - 0x40000000) : ℕ) : ℤ) - 2 ^ 31 :=
  ⟨by norm_num, (C28_triangle_amplitude 0x40000000 (by norm_num) 1 logue.Platform.prologue
    samplePanel 1).1⟩

/-! ## The detune -/

/-- C29: for every hash `int32(hash) >> 28` is the sign-extended top nibble, in
`[-8, 7]`; after the `+1` for non-negative values the detune is in `[-8, -1]`
or `[1, 8]`, and each of these 16 values is the detune of some 32-bit hash. On
a platform without unique id words the hash is 0 and the detune is 1. -/
theorem C29_detune_values (hash : ℕ) (uniqueId0 uniqueId1 uniqueId2 : ℕ) (g : Globals) :
    (-8 ≤ toInt32 hash >>> (28 : ℕ) ∧ toInt32 hash >>> (28 : ℕ) ≤ 7)
    ∧ toInt32 hash >>> (28 : ℕ)
        = (if hash % 2 ^ 32 / 2 ^ 28 < 8 then ((hash % 2 ^ 32 / 2 ^ 28 : ℕ) : ℤ)
           else ((hash % 2 ^ 32 / 2 ^ 28 : ℕ) : ℤ) - 16)
    ∧ ((-8 ≤ detuneOfHash hash ∧ detuneOfHash hash ≤ -1)
        ∨ (1 ≤ detuneOfHash hash ∧ detuneOfHash hash ≤ 8))
    ∧ (∀ d : ℤ, ((-8 ≤ d ∧ d ≤ -1) ∨ (1 ≤ d ∧ d ≤ 8)) →
        ∃ h : ℕ, h < 2 ^ 32 ∧ detuneOfHash h = d)
    ∧ detuneOfHash 0 = 1
    ∧ logue.VoiceID false uniqueId0 uniqueId1 uniqueId2 = 0
    ∧ (OSC_INIT false uniqueId0 uniqueId1 uniqueId2 g).detune = 1 := by
  have hr := shift28_range hash
  have hz : detuneOfHash 0 = 1 := by decide
  refine ⟨hr, ?_, ?_, ?_, hz, rfl, hz⟩
  · rw [Int.shiftRight_eq_div_pow]
    unfold toInt32
    norm_num
    split_ifs <;> omega
  · unfold detuneOfHash
    split_ifs with hx
    · right
      omega
    · left
      omega
  · intro d hd
    rcases hd with ⟨h1, h2⟩ | ⟨h1, h2⟩
    · refine ⟨(d + 16).toNat * 2 ^ 28, ?_, ?_⟩ <;> interval_cases d <;> decide
    · refine ⟨(d - 1).toNat * 2 ^ 28, ?_, ?_⟩ <;> interval_cases d <;> decide

/-- Witness of C29: the detune `-8` is produced by the hash `0x80000000`. -/
theorem C29_detune_values_witness :
    ((-8 : ℤ) ≤ -8 ∧ (-8 : ℤ) ≤ -1)
    ∧ ∃ h : ℕ, h < 2 ^ 32 ∧ detuneOfHash h = -8 :=
  ⟨⟨le_refl _, by norm_num⟩,
    (C29_detune_values 0 0 0 0 {}).2.2.2.1 (-8) (Or.inl ⟨le_refl _, by norm_num⟩)⟩

/-! ## The dummy panel against the fallback image -/

/-- C30 as stated fails: `filterCutoffControl()` is `0` in the dummy class and
`0x2000` on the fallback image of a supported platform; `lfoIsActive()` is
`false` in the dummy class and constantly `true` on a Prologue build; and
`lfoClock()` is `1.0` in the dummy class and `40500` on a supported build. -/
theorem C30_counterexample :
    logue.Panel.filterCutoffControl logue.Platform.other logue.Panel.fallbackImage = 0
    ∧ logue.Panel.filterCutoffControl logue.Platform.prologue logue.Panel.fallbackImage = 0x2000
    ∧ logue.Panel.filterCutoffControl logue.Platform.minilogueXD logue.Panel.fallbackImage
        = 0x2000
    ∧ logue.Panel.filterCutoffControl logue.Platform.other logue.Panel.fallbackImage
        ≠ logue.Panel.filterCutoffControl logue.Platform.prologue logue.Panel.fallbackImage
    ∧ logue.Panel.lfoIsActive logue.Platform.other logue.Panel.fallbackImage = false
    ∧ logue.Panel.lfoIsActive logue.Platform.prologue logue.Panel.fallbackImage = true
    ∧ logue.Panel.lfoClock logue.Platform.other = 1
    ∧ logue.Panel.lfoClock logue.Platform.prologue = 40500 :=
  ⟨rfl, rfl, rfl, by decide, rfl, rfl, rfl, rfl⟩

/-- C30 amended: for a supported platform, every accessor other than
`filterCutoffControl`, `lfoIsActive` and `lfoClock` returns in the dummy class
(whatever the panel) the value it returns on the fallback image: the VCO
accessors, the mixer and cross-modulation levels, the filter drive, key track,
resonance, EG intensity and low cut, the ring, sync and bypass enables, the LFO
modulations, waveform, phase delta, phase, one-shot flag and enables, the EG
intensity and modulation level, and the raw and float velocities. `lfoIsActive`
agrees on a Minilogue XD build; it is constantly `true` on a Prologue build
against `false` in the dummy class, and `lfoClock` is `40500` on a supported
build against `1.0` in the dummy class. -/
theorem C30_dummy_matches_fallback (platform : logue.Platform)
    (hs : platform ≠ logue.Platform.other) (p : logue.Panel) (index : Fin 2) :
    logue.Panel.vcoWaveform logue.Platform.other p index
        = logue.Panel.vcoWaveform platform logue.Panel.fallbackImage index
    ∧ logue.Panel.vcoShape logue.Platform.other p index
        = logue.Panel.vcoShape platform logue.Panel.fallbackImage index
    ∧ logue.Panel.vcoPitch logue.Platform.other p index
        = logue.Panel.vcoPitch platform logue.Panel.fallbackImage index
    ∧ logue.Panel.vcoPitchEg logue.Platform.other p index
        = logue.Panel.vcoPitchEg platform logue.Panel.fallbackImage index
    ∧ logue.Panel.vcoLevel logue.Platform.other p index
        = logue.Panel.vcoLevel platform logue.Panel.fallbackImage index
    ∧ logue.Panel.multiLevel logue.Platform.other p
        = logue.Panel.multiLevel platform logue.Panel.fallbackImage
    ∧ logue.Panel.crossModulationDepth logue.Platform.other p
        = logue.Panel.crossModulationDepth platform logue.Panel.fallbackImage
    ∧ logue.Panel.filterDriveSwitch logue.Platform.other p
        = logue.Panel.filterDriveSwitch platform logue.Panel.fallbackImage
    ∧ logue.Panel.filterCutoffKeyTrack logue.Platform.other p
        = logue.Panel.filterCutoffKeyTrack platform logue.Panel.fallbackImage
    ∧ logue.Panel.filterResonanceControl logue.Platform.other p
        = logue.Panel.filterResonanceControl platform logue.Panel.fallbackImage
    ∧ logue.Panel.filterEgIntensityControl logue.Platform.other p
        = logue.Panel.filterEgIntensityControl platform logue.Panel.fallbackImage
    ∧ logue.Panel.filterLowCutEnable logue.Platform.other p
        = logue.Panel.filterLowCutEnable platform logue.Panel.fallbackImage
    ∧ logue.Panel.ringEnable logue.Platform.other p
        = logue.Panel.ringEnable platform logue.Panel.fallbackImage
    ∧ logue.Panel.syncEnable logue.Platform.other p
        = logue.Panel.syncEnable platform logue.Panel.fallbackImage
    ∧ logue.Panel.multiVcfBypassEnable logue.Platform.other p
        = logue.Panel.multiVcfBypassEnable platform logue.Panel.fallbackImage
    ∧ logue.Panel.lfoShapeModulation logue.Platform.other p
        = logue.Panel.lfoShapeModulation platform logue.Panel.fallbackImage
    ∧ logue.Panel.lfoPitchModulation logue.Platform.other p
        = logue.Panel.lfoPitchModulation platform logue.Panel.fallbackImage
    ∧ logue.Panel.lfoFilterModulation logue.Platform.other p
        = logue.Panel.lfoFilterModulation platform logue.Panel.fallbackImage
    ∧ logue.Panel.lfoWaveform logue.Platform.other p
        = logue.Panel.lfoWaveform platform logue.Panel.fallbackImage
    ∧ logue.Panel.lfoPhaseDelta logue.Platform.other p
        = logue.Panel.lfoPhaseDelta platform logue.Panel.fallbackImage
    ∧ logue.Panel.lfoModulationEnableMulti logue.Platform.other p
        = logue.Panel.lfoModulationEnableMulti platform logue.Panel.fallbackImage
    ∧ logue.Panel.lfoModulationEnableVco logue.Platform.other p index
        = logue.Panel.lfoModulationEnableVco platform logue.Panel.fallbackImage index
    ∧ logue.Panel.egFilterIntensity logue.Platform.other p
        = logue.Panel.egFilterIntensity platform logue.Panel.fallbackImage
    ∧ logue.Panel.egFilterModulationLevel logue.Platform.other p
        = logue.Panel.egFilterModulationLevel platform logue.Panel.fallbackImage
    ∧ logue.Panel.rawEgVelocity logue.Platform.other p
        = logue.Panel.rawEgVelocity platform logue.Panel.fallbackImage
    ∧ logue.Panel.rawAmpVelocity logue.Platform.other p
        = logue.Panel.rawAmpVelocity platform logue.Panel.fallbackImage
    ∧ logue.Panel.egVelocity logue.Platform.other p
        = logue.Panel.egVelocity platform logue.Panel.fallbackImage
    ∧ logue.Panel.ampVelocity logue.Platform.other p
        = logue.Panel.ampVelocity platform logue.Panel.fallbackImage
    ∧ logue.Panel.lfoIsOneShot logue.Platform.other p
        = logue.Panel.lfoIsOneShot platform logue.Panel.fallbackImage
    ∧ logue.Panel.lfoPhase logue.Platform.other p
        = logue.Panel.lfoPhase platform logue.Panel.fallbackImage
    ∧ logue.Panel.lfoIsActive logue.Platform.other p
        = logue.Panel.lfoIsActive logue.Platform.minilogueXD logue.Panel.fallbackImage
    ∧ logue.Panel.lfoIsActive logue.Platform.other p = false
    ∧ logue.Panel.lfoIsActive logue.Platform.prologue logue.Panel.fallbackImage = true
    ∧ logue.Panel.lfoClock logue.Platform.other = 1
    ∧ logue.Panel.lfoClock platform = 40500 := by
  have heg : ∀ q : logue.Platform, q ≠ logue.Platform.other →
      logue.Panel.egVelocity q logue.Panel.fallbackImage = 1 := by
    intro q hq
    cases q with
    | prologue =>
      norm_num [logue.Panel.egVelocity, logue.Panel.rawEgVelocity, logue.Panel.fallbackImage]
    | minilogueXD =>
      norm_num [logue.Panel.egVelocity, logue.Panel.rawEgVelocity, logue.Panel.fallbackImage]
    | other => exact absurd rfl hq
  have hamp : ∀ q : logue.Platform, q ≠ logue.Platform.other →
      logue.Panel.ampVelocity q logue.Panel.fallbackImage = 1 := by
    intro q hq
    cases q with
    | prologue =>
      norm_num [logue.Panel.ampVelocity, logue.Panel.rawAmpVelocity, logue.Panel.fallbackImage]
    | minilogueXD =>
      norm_num [logue.Panel.ampVelocity, logue.Panel.rawAmpVelocity, logue.Panel.fallbackImage]
    | other => exact absurd rfl hq
  have he := heg platform hs
  have ha := hamp platform hs
  cases platform with
  | prologue =>
    repeat' apply And.intro
    all_goals first | exact he.symm | exact ha.symm | rfl
  | minilogueXD =>
    repeat' apply And.intro
    all_goals first | exact he.symm | exact ha.symm | rfl
  | other => exact absurd rfl hs

/-- Witness of the amended C30 on a Prologue build, against a dummy panel seen
over the sample host state. -/
theorem C30_dummy_matches_fallback_witness :
    logue.Platform.prologue ≠ logue.Platform.other
    ∧ logue.Panel.rawEgVelocity logue.Platform.other samplePanel
        = logue.Panel.rawEgVelocity logue.Platform.prologue logue.Panel.fallbackImage :=
  ⟨by decide, (C30_dummy_matches_fallback logue.Platform.prologue (by decide) samplePanel
    0).2.2.2.2.2.2.2.2.2.2.2.2.2.2.2.2.2.2.2.2.2.2.2.2.1⟩
